import Mathlib

/-!
Shallow embedding of the content-extraction and publish pipeline of
`StorymapCreator_v1.py`, together with proofs about the properties of its
list engine, block classifier, code-language detector, image display rule
and two-phase publish protocol.

Conventions used throughout the embedding:
* Python dicts that preserve insertion order are modelled as association
  lists (`List (key × value)`); updating an existing key keeps its
  position, a fresh key is appended at the end.
* Python string operations are modelled over `List Char` so that every
  definition reduces inside the kernel (`pyStrip`, `pyLower`, `pyLen`,
  `strContains`, `strStartsWith`, `strJoin`).
* Machine integers are `Nat`/`Int`; the only real-valued comparison in
  the source (`aspect_ratio >= 16/9`) is modelled exactly on rationals
  via cross multiplication.
* `re.search`/`re.findall` are modelled by a small executable backtracking
  regular-expression engine; every pattern of the source is transcribed
  into an explicit syntax tree.
-/

namespace Storymap

/-! ## List engine (`group_list_items`, `flatten_list_hierarchy`) -/

/-- A raw list item as collected per numbering id during the paragraph
scan (the dict keys read by `group_list_items`: `text`, `level`, `type`,
`element_index`). -/
structure RawItem where
  text : String
  level : Nat
  type : String
  element_index : Nat
deriving Repr, DecidableEq

/-- A list item after `flat_item['num_id'] = num_id` was attached in
`group_list_items`. -/
structure FlatItem where
  text : String
  level : Nat
  type : String
  element_index : Nat
  num_id : Nat
deriving Repr, DecidableEq

/-- An item as stored inside a group by `group_list_items`
(`text`, `level`, `original_type`, `group_index`). -/
structure GItem where
  text : String
  level : Nat
  original_type : String
  group_index : Nat
deriving Repr, DecidableEq

/-- A list group (`type`, `document_position`, `items`); `type` is `none`
until the first level-0 item of the group is seen. -/
structure Group where
  type : Option String
  document_position : Nat
  items : List GItem
deriving Repr, DecidableEq

/-- Stable insertion by `element_index`: an element is placed before the
first strictly larger key and after equal keys, so that the induced sort
is stable, modelling Python's stable `flat_items.sort(key=element_index)`. -/
def insertByPos (x : FlatItem) : List FlatItem → List FlatItem
  | [] => [x]
  | y :: ys =>
    if x.element_index < y.element_index then x :: y :: ys
    else y :: insertByPos x ys

/-- Stable sort of the flattened item list by `element_index`. -/
def sortByPos : List FlatItem → List FlatItem
  | [] => []
  | x :: xs => insertByPos x (sortByPos xs)

/-- Flattening of the input dict `num_id -> items` into one list, each
item tagged with its `num_id` (the first loop of `group_list_items`). -/
def buildFlat (all : List (Nat × List RawItem)) : List FlatItem :=
  (all.map fun p =>
    p.2.map fun it => FlatItem.mk it.text it.level it.type it.element_index p.1).flatten

/-- The mutable state of the grouping loop of `group_list_items`:
finished groups, the group under construction, and the `current_num_id` /
`last_level` tracking variables (both `None` before the first item). -/
structure GroupState where
  groups : List Group
  current : Group
  current_num_id : Option Nat
  last_level : Option Nat
deriving Repr, DecidableEq

/-- One iteration of the grouping loop of `group_list_items`.  A new group
is started only when the incoming item is at level 0, the current group is
non-empty, the previous item was also at level 0 (`last_level == 0`) and
its numbering id differs (`num_id != current_num_id`); the current group is
then finalized.  The item is appended with its `group_index`, and the group
type is set from the first level-0 item. -/
def groupStep (st : GroupState) (item : FlatItem) : GroupState :=
  let start_new_group : Bool :=
    item.level == 0 && !st.current.items.isEmpty &&
      st.last_level == some 0 && st.current_num_id != some item.num_id
  let st1 :=
    if start_new_group then
      { st with
        groups :=
          if st.current.items.isEmpty then st.groups else st.groups ++ [st.current]
        current := { type := none, document_position := item.element_index, items := [] } }
    else st
  let new_item : GItem :=
    { text := item.text, level := item.level, original_type := item.type
      group_index := st1.current.items.length }
  let cur2 := { st1.current with items := st1.current.items ++ [new_item] }
  let cur3 :=
    if cur2.type == none && item.level == 0 then { cur2 with type := some item.type }
    else cur2
  { st1 with current := cur3, current_num_id := some item.num_id
             last_level := some item.level }

/-- `group_list_items`: flatten all pending items, sort them by document
position and group them with `groupStep`; the trailing group is appended
when non-empty.  The returned list preserves the `group_0`, `group_1`, …
key order of the source's result dict. -/
def group_list_items (all : List (Nat × List RawItem)) : List Group :=
  let flat := sortByPos (buildFlat all)
  match flat with
  | [] => []
  | x :: _ =>
    let st0 : GroupState :=
      { groups := [], current := { type := none, document_position := x.element_index, items := [] }
        current_num_id := none, last_level := none }
    let stF := flat.foldl groupStep st0
    stF.groups ++ (if stF.current.items.isEmpty then [] else [stF.current])

/-- Minimum over the levels of a list of items, `0` for the empty list
(`min(item['level'] for item in group['items']) if group['items'] else 0`). -/
def minAux (m : Nat) : List GItem → Nat
  | [] => m
  | y :: ys => minAux (min m y.level) ys

def minLevel : List GItem → Nat
  | [] => 0
  | x :: xs => minAux x.level xs

/-- `"--- " * n`-style string repetition. -/
def repeatStr (s : String) : Nat → String
  | 0 => ""
  | n + 1 => s ++ repeatStr s n

/-- Stage-B rewriting of one item: an item whose level is more than one
above the group minimum is prefixed with `"--- "` per excess level and
pulled down to `min_level + 1`; all other items pass unchanged. -/
def flattenItem (min_level : Nat) (item : GItem) : GItem :=
  let relative_level := item.level - min_level
  if relative_level > 1 then
    let excess_depth := relative_level - 1
    { item with
      text := repeatStr ("--- ") excess_depth ++ item.text
      level := min_level + 1 }
  else item

/-- Stage-B flattening of one group (`flatten_list_hierarchy` body). -/
def flattenGroup (g : Group) : Group :=
  let min_level := minLevel g.items
  { g with items := g.items.map (flattenItem min_level) }

/-- `flatten_list_hierarchy`: flatten every group. -/
def flatten_list_hierarchy (gs : List Group) : List Group :=
  gs.map flattenGroup

/-! ### Reference formulations of the grouping rule

`claimStartsNewGroup` renders the claim C1 exactly as stated (a new group
whenever a level-0 item's numbering id differs from the id of the last
preceding level-0 item, however far back).  `amendedBoundary` is the rule
the code actually implements (the immediately preceding item must itself
be at level 0). -/

/-- The numbering id of the last level-0 item strictly before index `i`. -/
def lastRootNumId (flat : List FlatItem) (i : Nat) : Option Nat :=
  (((flat.take i).filter fun it => it.level == 0).getLast?).map (·.num_id)

/-- Claim C1 as stated: item `i` starts a new group iff it is at level 0
and its numbering id differs from the last preceding level-0 item's id. -/
def claimStartsNewGroup (flat : List FlatItem) (i : Nat) : Bool :=
  match flat.get? i with
  | none => false
  | some it =>
    it.level == 0 &&
      match lastRootNumId flat i with
      | none => false
      | some nid => nid != it.num_id

/-- The boundary rule the code implements: a new group starts at `cur`
exactly when `cur` and the immediately preceding item are both at level 0
and their numbering ids differ. -/
def amendedBoundary (prev cur : FlatItem) : Bool :=
  cur.level == 0 && prev.level == 0 && some prev.num_id != some cur.num_id

/-- Split a flat sequence into runs at amended boundaries; `prev` is the
item immediately before the front of the remaining list and `acc` the
(non-empty) run under construction. -/
def splitRunsGo (prev : FlatItem) (acc : List FlatItem) :
    List FlatItem → List (List FlatItem)
  | [] => [acc]
  | x :: xs =>
    if amendedBoundary prev x then acc :: splitRunsGo x [x] xs
    else splitRunsGo x (acc ++ [x]) xs

def splitRuns : List FlatItem → List (List FlatItem)
  | [] => []
  | x :: xs => splitRunsGo x [x] xs

/-- Items of a run converted to group items with consecutive
`group_index` starting at `i`. -/
def gItemsFrom (i : Nat) : List FlatItem → List GItem
  | [] => []
  | x :: xs => { text := x.text, level := x.level, original_type := x.type
                 group_index := i } :: gItemsFrom (i + 1) xs

/-- The group a run denotes: type from its first level-0 item, document
position from its first item, items indexed from 0. -/
def mkGroup (run : List FlatItem) : Group :=
  { type := (run.find? fun it => it.level == 0).map (·.type)
    document_position := ((run.head?).map (·.element_index)).getD 0
    items := gItemsFrom 0 run }

/-- Reference grouping: split the sorted flat sequence at amended
boundaries and convert each run to a group. -/
def amendedGroups (all : List (Nat × List RawItem)) : List Group :=
  (splitRuns (sortByPos (buildFlat all))).map mkGroup

/-! ## Regular-expression engine

The source uses `re.search`/`re.findall` over a fixed set of patterns.
Each pattern is transcribed into an explicit syntax tree; matching is a
fuel-bounded backtracking matcher with Python's preference order (left
alternative first, greedy star consumes first, lazy star consumes last).
`IGNORECASE` searches are run on a lowercased subject against patterns
whose literals are written in lowercase. -/

/-! Python string primitives, implemented over `List Char` so that every
definition reduces inside the kernel (`String.toLower`/`String.trim` of
core Lean do not).  `lower`/`strip` are modelled for the ASCII range,
which covers every string the source compares. -/

/-- The whitespace stripped by Python's `str.strip()`. -/
def isPySpace (c : Char) : Bool :=
  c == ' ' || c == '\t' || c == '\n' || c == '\r' || c == '\x0b' || c == '\x0c'

/-- `str.strip()`. -/
def pyStrip (s : String) : String :=
  String.mk (((s.toList.dropWhile isPySpace).reverse.dropWhile isPySpace).reverse)

/-- `str.lower()` (ASCII). -/
def pyLower (s : String) : String := String.mk (s.toList.map Char.toLower)

/-- `len(s)`. -/
def pyLen (s : String) : Nat := s.toList.length

def strStartsWith (s pre : String) : Bool := pre.toList.isPrefixOf s.toList

/-- `"".join(parts)` (restricted to plain concatenation as used by the
source). -/
def strJoin : List String → String
  | [] => ""
  | s :: rest => s ++ strJoin rest

def strEndsWith (s suf : String) : Bool := suf.toList.isSuffixOf s.toList

/-- `\w` — ASCII word characters. -/
def isWordChar (c : Char) : Bool := c.isAlphanum || c == '_'

/-- A hexadecimal digit (for `\uXXXX` escapes). -/
def isHexDigitChar (c : Char) : Bool :=
  c.isDigit || ('a' ≤ c && c ≤ 'f') || ('A' ≤ c && c ≤ 'F')

inductive RE where
  | eps
  | sym (p : Char → Bool)
  | seq (a b : RE)
  | alt (a b : RE)
  | starG (a : RE)
  | starL (a : RE)
  | wordB
  | eol (multiline : Bool)

def RE.size : RE → Nat
  | .eps => 1
  | .sym _ => 1
  | .seq a b => a.size + b.size + 1
  | .alt a b => a.size + b.size + 1
  | .starG a => a.size + 1
  | .starL a => a.size + 1
  | .wordB => 1
  | .eol _ => 1

/-- Backtracking matcher in continuation style.  `prev` is the character
just before the current position (for `\b` and nothing else), `k` the
continuation receiving the new `prev` and the rest of the subject. -/
def matchK : Nat → RE → Option Char → List Char →
    (Option Char → List Char → Option α) → Option α
  | 0, _, _, _, _ => none
  | f + 1, re, prev, s, k =>
    match re with
    | .eps => k prev s
    | .sym p =>
      match s with
      | [] => none
      | c :: rest => if p c then k (some c) rest else none
    | .seq a b => matchK f a prev s fun p2 s2 => matchK f b p2 s2 k
    | .alt a b =>
      match matchK f a prev s k with
      | some r => some r
      | none => matchK f b prev s k
    | .starG a =>
      match matchK f a prev s (fun p2 s2 => matchK f (.starG a) p2 s2 k) with
      | some r => some r
      | none => k prev s
    | .starL a =>
      match k prev s with
      | some r => some r
      | none => matchK f a prev s fun p2 s2 => matchK f (.starL a) p2 s2 k
    | .wordB =>
      let left := match prev with | some c => isWordChar c | none => false
      let right := match s with | c :: _ => isWordChar c | [] => false
      if left != right then k prev s else none
    | .eol ml =>
      match s with
      | [] => k prev s
      | c :: rest => if c == '\n' && (ml || rest.isEmpty) then k prev s else none

/-- A fuel bound large enough for every pattern/subject pair in the
source: the matcher consumes one unit per node visited along a path, and
no pattern of the source has a nullable star body, so the recursion depth
is below `size * (length + 2)`. -/
def reFuel (re : RE) (s : List Char) : Nat := (re.size + 2) * (s.length + 2) + 100

/-- `re.search`: try a match at each position, left to right. -/
def reSearchAux (fuel : Nat) (re : RE) : Option Char → List Char → Bool
  | prev, [] => (matchK fuel re prev [] fun _ _ => some ()).isSome
  | prev, c :: rest =>
    if (matchK fuel re prev (c :: rest) fun _ _ => some ()).isSome then true
    else reSearchAux fuel re (some c) rest

def reSearch (re : RE) (s : String) : Bool :=
  let cs := s.toList
  reSearchAux (reFuel re cs) re none cs

/-- An `IGNORECASE` search: the subject is lowered, pattern literals are
written lowercase. -/
def searchIC (re : RE) (s : String) : Bool := reSearch re (pyLower s)

/-- `re.findall` restricted to counting non-overlapping matches (all the
source does with `findall` besides word extraction); after an empty match
the scan advances one character, as in Python. -/
def reFindCountAux (re : RE) : Nat → Option Char → List Char → Nat
  | 0, _, _ => 0
  | f + 1, prev, s =>
    match matchK (reFuel re s) re prev s (fun p2 s2 => some (p2, s2)) with
    | some (p2, rest) =>
      if rest.length < s.length then 1 + reFindCountAux re f p2 rest
      else
        match s with
        | [] => 1
        | c :: rest2 => 1 + reFindCountAux re f (some c) rest2
    | none =>
      match s with
      | [] => 0
      | c :: rest2 => reFindCountAux re f (some c) rest2

def reFindCount (re : RE) (s : String) : Nat :=
  let cs := s.toList
  reFindCountAux re (cs.length + 1) none cs

/-! Pattern combinators mirroring the regex syntax of the source. -/

def rchar (c : Char) : RE := .sym fun x => x == c
def rstr (s : String) : RE := (s.toList.map rchar).foldr .seq .eps
def rws : RE := .sym Char.isWhitespace
def rwc : RE := .sym isWordChar
def rdot : RE := .sym fun c => c != '\n'
def rplus (r : RE) : RE := .seq r (.starG r)
def rplusL (r : RE) : RE := .seq r (.starL r)
def rstar (r : RE) : RE := .starG r
def ropt (r : RE) : RE := .alt r .eps
def rcat (rs : List RE) : RE := rs.foldr .seq .eps
def ralts : List RE → RE
  | [] => .eps
  | r :: rest => rest.foldl .alt r
def rcls (cs : List Char) : RE := .sym fun c => cs.contains c
def rncls (cs : List Char) : RE := .sym fun c => !cs.contains c

/-- Naive substring test modelling Python's `needle in hay`. -/
def strContains (hay needle : String) : Bool :=
  let h := hay.toList
  let n := needle.toList
  (List.range (h.length + 1)).any fun i => n.isPrefixOf (h.drop i)

def countChar (s : String) (c : Char) : Nat := s.toList.countP (· == c)

def natAbsDiff (a b : Nat) : Nat := max a b - min a b

/-! ## A JSON syntax checker modelling `json.loads` (validity only) -/

def jsonWs (s : List Char) : List Char :=
  s.dropWhile fun c => c == ' ' || c == '\t' || c == '\n' || c == '\r'

/-- Body of a JSON string after the opening quote; returns the rest after
the closing quote. -/
def jsonStringBody : Nat → List Char → Option (List Char)
  | 0, _ => none
  | f + 1, s =>
    match s with
    | [] => none
    | c :: rest =>
      if c == '"' then some rest
      else if c == '\\' then
        match rest with
        | [] => none
        | e :: rest2 =>
          if e == '"' || e == '\\' || e == '/' || e == 'b' || e == 'f' ||
              e == 'n' || e == 'r' || e == 't' then jsonStringBody f rest2
          else if e == 'u' then
            match rest2 with
            | h1 :: h2 :: h3 :: h4 :: rest3 =>
              if isHexDigitChar h1 && isHexDigitChar h2 && isHexDigitChar h3 && isHexDigitChar h4 then
                jsonStringBody f rest3
              else none
            | _ => none
          else none
      else if c.toNat < 32 then none
      else jsonStringBody f rest

def jsonFracExp (s : List Char) : Option (List Char) :=
  let s2 : Option (List Char) :=
    match s with
    | '.' :: r =>
      match r with
      | d :: _ => if d.isDigit then some (r.dropWhile Char.isDigit) else none
      | [] => none
    | _ => some s
  match s2 with
  | none => none
  | some s3 =>
    match s3 with
    | e :: r =>
      if e == 'e' || e == 'E' then
        let r2 := match r with
          | '+' :: q => q
          | '-' :: q => q
          | _ => r
        match r2 with
        | d :: _ => if d.isDigit then some (r2.dropWhile Char.isDigit) else none
        | [] => none
      else some s3
    | [] => some s3

def jsonNumber (s : List Char) : Option (List Char) :=
  let s1 := match s with | '-' :: r => r | _ => s
  match s1 with
  | [] => none
  | c :: rest =>
    if c == '0' then jsonFracExp rest
    else if c.isDigit then jsonFracExp (rest.dropWhile Char.isDigit)
    else none

/-- Parser modes: one JSON value, object members after the opening
brace (and any leading `\x7d` already handled), or array elements. -/
inductive JMode where
  | val
  | members
  | elements

/-- Consume one JSON value (including the `NaN`/`Infinity` extensions
`json.loads` accepts by default), or the members of an object, or the
elements of an array, depending on the mode.  Single fuel-structural
function so that it reduces inside the kernel. -/
def jsonRun : Nat → JMode → List Char → Option (List Char)
  | 0, _, _ => none
  | f + 1, .val, s0 =>
    let s := jsonWs s0
    match s with
    | [] => none
    | c :: rest =>
      if c == '"' then jsonStringBody (rest.length + 1) rest
      else if c == '\x7b' then
        match jsonWs rest with
        | '\x7d' :: rest2 => some rest2
        | s2 => jsonRun f .members s2
      else if c == '[' then
        match jsonWs rest with
        | ']' :: rest2 => some rest2
        | s2 => jsonRun f .elements s2
      else if ("true".toList).isPrefixOf s then some (s.drop 4)
      else if ("false".toList).isPrefixOf s then some (s.drop 5)
      else if ("null".toList).isPrefixOf s then some (s.drop 4)
      else if ("NaN".toList).isPrefixOf s then some (s.drop 3)
      else if ("Infinity".toList).isPrefixOf s then some (s.drop 8)
      else if ("-Infinity".toList).isPrefixOf s then some (s.drop 9)
      else jsonNumber s
  | f + 1, .members, s =>
    match s with
    | '"' :: rest =>
      match jsonStringBody (rest.length + 1) rest with
      | none => none
      | some afterKey =>
        match jsonWs afterKey with
        | ':' :: afterColon =>
          match jsonRun f .val afterColon with
          | none => none
          | some afterVal =>
            match jsonWs afterVal with
            | ',' :: afterComma => jsonRun f .members (jsonWs afterComma)
            | '\x7d' :: rest2 => some rest2
            | _ => none
        | _ => none
    | _ => none
  | f + 1, .elements, s =>
    match jsonRun f .val s with
    | none => none
    | some afterVal =>
      match jsonWs afterVal with
      | ',' :: afterComma => jsonRun f .elements afterComma
      | ']' :: rest2 => some rest2
      | _ => none

/-- `json.loads(code)` succeeds (validity only). -/
def jsonParses (s : String) : Bool :=
  match jsonRun (pyLen s + 10) .val s.toList with
  | some rest => (jsonWs rest).isEmpty
  | none => false

/-! ## Code language detector (`detect_code_language` and its checks)

Each `*_patterns` list transcribes the regex list of the corresponding
source function; the original pattern is quoted in a comment.  All
searches below are `IGNORECASE` (the JS/TS embedded-HTML probe is the one
case-sensitive search), so literals are written lowercase and the subject
is lowered by `searchIC`. -/

def sql_patterns : List RE :=
  [rcat [rstr ("select"), rplus rws, rplusL rdot, rplus rws, rstr ("from")],
   rcat [rstr ("insert"), rplus rws, rstr ("into")],
   rcat [rstr ("update"), rplus rws, rplusL rdot, rplus rws, rstr ("set")],
   rcat [rstr ("create"), rplus rws, rstr ("table")],
   rcat [rstr ("alter"), rplus rws, rstr ("table")],
   rcat [rstr ("drop"), rplus rws, rstr ("table")],
   rcat [rstr ("join"), rplus rws, rplus rwc, rplus rws, rstr ("on")],
   rcat [rstr ("where"), rplus rws, rplus rwc, rstar rws, rcls ['=', '<', '>']],
   rcat [rstr ("order"), rplus rws, rstr ("by"), rplus rws, rplus rwc],
   rcat [rstr ("group"), rplus rws, rstr ("by"), rplus rws, rplus rwc]]

/-- `check_sql`: at least one SQL pattern → `sql`. -/
def check_sql (_code code_lower : String) : Option String :=
  if (sql_patterns.countP fun p => searchIC p code_lower) ≥ 1 then some ("sql") else none

def arcade_patterns : List RE :=
  [rcat [rstr ("geometry"), rchar '('],
   rcat [ralts [rstr ("feature"), rstr ("featureset")], rchar '('],
   rcat [rstr ("when"), rchar '('],
   rcat [ralts [rstr ("text"), rstr ("count"), rstr ("concatenate"), rstr ("iif"),
      rstr ("isempty")], rchar '('],
   rstr ("$feature"),
   rstr ("$map"),
   rcat [rstr ("//"), rstar rdot, .eol true]]

def check_arcade (code _code_lower : String) : Option String :=
  if (arcade_patterns.countP fun p => searchIC p code) ≥ 1 then some ("arcade") else none

/-- `check_json`: braces/brackets sanity plus a successful `json.loads`. -/
def check_json (code : String) : Option String :=
  let stripped := pyStrip code
  if (strStartsWith stripped ("\x7b") && strEndsWith stripped ("\x7d")) ||
      (strStartsWith stripped ("[") && strEndsWith stripped ("]")) then
    if jsonParses code then some ("json") else none
  else none

def wdotc : RE := .sym fun c => isWordChar c || c == '.'

def python_patterns : List RE :=
  [rcat [.wordB, rstr ("def"), rplus rws, rplus rwc, rstar rws, rchar '('],
   rcat [.wordB, rstr ("class"), rplus rws, rplus rwc, rstar rws, rchar ':'],
   rcat [rstr ("import"), rplus rws, rplus wdotc],
   rcat [rstr ("from"), rplus rws, rplus wdotc, rplus rws, rstr ("import")],
   rcat [rstr ("if"), rplus rws, rstr ("__name__"), rstar rws, rstr ("=="), rstar rws,
     rcls ['\'', '"'], rstr ("__main__"), rcls ['\'', '"']],
   rcat [rstr ("arcpy."), rplus rwc],
   rcat [rchar '#', .starL rdot, .eol true]]

def check_python (code _code_lower : String) : Option String :=
  if (python_patterns.countP fun p => searchIC p code) ≥ 1 then some ("py") else none

def access_alts : RE := ralts [rstr ("public"), rstr ("private"), rstr ("protected")]

def csharp_patterns : List RE :=
  [rcat [rstr ("using"), rplus rws, rstr ("system;")],
   rcat [rstr ("namespace"), rplus rws, rplus rwc],
   rcat [access_alts, rplus rws, ralts [rstr ("class"), rstr ("interface")]],
   rcat [access_alts, rplus rws, rplus rwc, rplus rws, rplus rwc, rstar rws, rchar '('],
   rcat [rstr ("console."), ralts [rstr ("write"), rstr ("writeline")]]]

def check_csharp (code _code_lower : String) : Option String :=
  if (csharp_patterns.countP fun p => searchIC p code) ≥ 1 then some ("cs") else none

def js_patterns : List RE :=
  [rcat [rstr ("function"), rplus rws, rplus rwc, rstar rws, rchar '('],
   rcat [ralts [rstr ("const"), rstr ("let"), rstr ("var")], rplus rws, rplus rwc,
     rstar rws, rchar '='],
   rstr ("=>"),
   rcat [rstr ("console."), ralts [rstr ("log"), rstr ("warn"), rstr ("error")]],
   rcat [rstr ("document.get"), ralts [rstr ("element"), rstr ("elementsbytagname")]],
   rcat [rstr ("window."), rplus rwc],
   rcat [rstr ("new"), rplus rws, rplus rwc, rchar '(']]

def ts_patterns : List RE :=
  [rcat [rstr ("interface"), rplus rws, rplus rwc],
   rcat [rstr ("type"), rplus rws, rplus rwc, rstar rws, rchar '='],
   rcat [rchar ':', rstar rws, rplus rwc, rstar (rcls ['[', ']', '<', '>']),
     ralts [rcat [rstar rws, rchar '='], rchar ')']],
   rcat [rchar '<', rplus rwc, rchar '>', rcls ['(', '[']],
   rcat [rstr ("as"), rplus rws, rplus rwc]]

/-- `<\w+(\s+\w+=["\'].+?["\'])*>` — the embedded-HTML probe, searched
case-sensitively. -/
def html_like_pattern : RE :=
  rcat [rchar '<', rplus rwc,
    rstar (rcat [rplus rws, rplus rwc, rchar '=', rcls ['"', '\''], rplusL rdot,
      rcls ['"', '\'']]),
    rchar '>']

def check_javascript_typescript (code _code_lower : String) : Option String :=
  let js_matches := js_patterns.countP fun p => searchIC p code
  let ts_matches := ts_patterns.countP fun p => searchIC p code
  if js_matches ≥ 1 || ts_matches ≥ 1 then
    let has_html := reSearch html_like_pattern code
    if has_html then
      if ts_matches ≥ 1 then some ("tsx") else some ("jsx")
    else if ts_matches ≥ 1 then some ("ts")
    else some ("js")
  else none

def wdashc : RE := .sym fun c => isWordChar c || c == '-'

def css_patterns : List RE :=
  [rcat [rplus wdashc, rstar rws, rchar ':', rstar rws, rplus (rncls [';']), rchar ';'],
   rcat [rchar '.', rplus rwc, rstar wdashc, rstar rws, rchar '\x7b'],
   rcat [rchar '#', rplus rwc, rstar wdashc, rstar rws, rchar '\x7b'],
   rcat [rchar '@', ralts [rstr ("media"), rstr ("keyframes"), rstr ("import"),
     rstr ("font-face")]],
   rcat [ralts [rstr ("margin"), rstr ("padding"), rstr ("color"), rstr ("background"),
     rstr ("font"), rstr ("display")], rchar ':']]

def check_css (code _code_lower : String) : Option String :=
  if (countChar code '\x7b' > 0) && (countChar code '\x7d' > 0 || countChar code ';' > 0) then
    let match_count := css_patterns.countP fun p => searchIC p code
    if match_count ≥ 2 || (match_count ≥ 1 && pyLen code < 100) then some ("css") else none
  else none

/-- `</?[a-z][a-z0-9]*\b[^>]*>` on a lowered subject. -/
def html_tag_pattern : RE :=
  rcat [rchar '<', ropt (rchar '/'), .sym Char.isLower,
    rstar (.sym fun c => c.isLower || c.isDigit), .wordB, rstar (rncls ['>']), rchar '>']

/-- `\s+(href|src|alt|class|id|style)=["\'"][^\'"]*["\']` on a lowered subject. -/
def html_attr_pattern : RE :=
  rcat [rplus rws, ralts [rstr ("href"), rstr ("src"), rstr ("alt"), rstr ("class"),
      rstr ("id"), rstr ("style")],
    rchar '=', rcls ['"', '\''], rstar (rncls ['\'', '"']), rcls ['"', '\'']]

def html_strong_patterns : List RE :=
  [rcat [rstr ("<!doctype"), rplus rws, rstr ("html")],
   ralts [rstr ("<html>"), rcat [rstr ("<html"), rplus rws]],
   rcat [rchar '<', ralts [rstr ("div"), rstr ("span"), rstr ("p"), rstr ("a"),
       rstr ("img"), rcat [rchar 'h', rcls ['1', '2', '3', '4', '5', '6']]],
     ropt (rcat [rplus rws, rstar (rncls ['>'])]), rchar '>']]

def check_html (code _code_lower : String) : Option String :=
  if countChar code '<' > 0 && countChar code '>' > 0 then
    let tags := reFindCount html_tag_pattern (pyLower code)
    let open_brackets := countChar code '<'
    let close_brackets := countChar code '>'
    let attrs := reFindCount html_attr_pattern (pyLower code)
    if (tags ≥ 2 || (tags ≥ 1 && attrs ≥ 1)) &&
        natAbsDiff open_brackets close_brackets ≤ 2 then some ("html")
    else if html_strong_patterns.any fun p => searchIC p code then some ("html")
    else none
  else none

/-- The keyword table, transcribed with the exact casing of the source
(the capitalized Python entries can never match the lowered words, there
as here). -/
def keyword_sets : List (String × List String) :=
  [("py", ["def", "import", "class", "self", "None", "True", "False", "if", "elif",
    "else", "for", "in", "try", "except"]),
   ("js", ["function", "const", "let", "var", "return", "true", "false", "null",
    "undefined", "this", "new"]),
   ("sql", ["select", "from", "where", "insert", "update", "delete", "create", "drop",
    "alter", "join"]),
   ("cs", ["using", "namespace", "public", "private", "class", "void", "string", "int",
    "bool"]),
   ("html", ["div", "span", "class", "id", "style", "href", "src"]),
   ("css", ["margin", "padding", "color", "background", "width", "height", "font"]),
   ("arcade", ["when", "feature", "geometry", "text", "count", "iif"])]

/-- `re.findall(r'\b(\w+)\b', code_lower)`: the maximal word-character
runs of the subject, in order. -/
def pyWordsGo : List Char → List Char → List String
  | cur, [] => if cur.isEmpty then [] else [String.mk cur.reverse]
  | cur, c :: rest =>
    if isWordChar c then pyWordsGo (c :: cur) rest
    else if cur.isEmpty then pyWordsGo [] rest
    else String.mk cur.reverse :: pyWordsGo [] rest

def pyWords (s : String) : List String := pyWordsGo [] s.toList

/-- `check_keywords`: per-language keyword hit counts over the words of
the lowered subject; the best-scoring language wins when it has at least
two hits, ties broken by the insertion order of `keyword_sets` (Python's
`max` keeps the first maximum). -/
def check_keywords (_code code_lower : String) : Option String :=
  let words := pyWords code_lower
  let language_scores := keyword_sets.filterMap fun kv =>
    let m := words.countP fun w => kv.2.contains w
    if m > 0 then some (kv.1, m) else none
  match language_scores with
  | [] => none
  | s :: rest =>
    let best := rest.foldl (fun b xp => if xp.2 > b.2 then xp else b) s
    if best.2 ≥ 2 then some best.1 else none

def check_text_about_code (_code code_lower : String) : Option String :=
  if (strContains code_lower ("code") &&
      (strContains code_lower ("style") || strContains code_lower ("add"))) ||
      (strContains code_lower ("syntax") || strContains code_lower ("example")) then
    if strContains code_lower ("python") then some ("py")
    else if strContains code_lower ("javascript") then some ("js")
    else if strContains code_lower ("html") then some ("html")
    else if strContains code_lower ("css") then some ("css")
    else if strContains code_lower ("sql") then some ("sql")
    else if strContains code_lower ("c#") || strContains code_lower ("csharp") then
      some ("cs")
    else none
  else none

/-- `detect_code_language`: the ordered cascade of checks, falling back
to the plain-text tag `txt`. -/
def detect_code_language (code_content : String) : String :=
  if code_content == "" || pyLen (pyStrip code_content) < 3 then "txt"
  else
    let code := pyStrip code_content
    let code_lower := pyLower code
    ((check_sql code code_lower) <|> (check_arcade code code_lower) <|>
      (check_json code) <|> (check_python code code_lower) <|>
      (check_csharp code code_lower) <|> (check_javascript_typescript code code_lower) <|>
      (check_css code code_lower) <|> (check_html code code_lower) <|>
      (check_keywords code code_lower) <|>
      (check_text_about_code code code_lower)).getD ("txt")

/-! ## Run formatter and block classifier
(`extract_formatted_text`, `process_docx_paragraph`)

A DOCX run is modelled by the properties the source reads from it: the
formatting toggles, the texts of its `w:t` children whose `.text` is
present (ElementTree yields `None` for empty elements, so a present text
is never the empty string in practice), a line-break flag, the parsed
`w:sz` value in half-points (`None` when absent or unparsable), and the
resolved hyperlink target when the run sits inside a resolvable
`w:hyperlink`. -/
structure Run where
  bold : Bool
  italic : Bool
  underline : Bool
  strike : Bool
  vertAlign : Option String
  color : Option String
  texts : List String
  hasBr : Bool
  sz : Option Nat
  hyperlink : Option String
deriving Repr, DecidableEq

/-- A paragraph as read by the classifier: `w:pStyle` value, presence of
a `w:drawing`, `w:jc` value, parsed `w:outlineLvl` value, presence of a
`w:spacing` element, and its runs. -/
structure Paragraph where
  style : Option String
  hasDrawing : Bool
  jc : Option String
  outlineLvl : Option Int
  spacing : Bool
  runs : List Run
deriving Repr, DecidableEq

/-- The inline markup one run contributes (`extract_formatted_text` run
loop): hyperlink wrap, then sub/sup, em, strong, u, s, and the color
span; a run whose accumulated text is empty contributes nothing. -/
def formatRun (r : Run) : String :=
  let run_text := strJoin r.texts ++ (if r.hasBr then "\n" else "")
  if run_text != "" then
    let t0 :=
      match r.hyperlink with
      | some url =>
        let url2 :=
          if url != "" && !(strStartsWith url ("http://") || strStartsWith url ("https://") ||
              strStartsWith url ("#")) then
            "https://" ++ url
          else url
        "<a href=\"" ++ url2 ++ "\" rel=\"noopener noreferrer\" target=\"_blank\">" ++
          run_text ++ "</a>"
      | none => run_text
    let t1 := if r.vertAlign == some ("subscript") then "<sub>" ++ t0 ++ "</sub>" else t0
    let t2 := if r.vertAlign == some ("superscript") then "<sup>" ++ t1 ++ "</sup>" else t1
    let t3 := if r.italic then "<em>" ++ t2 ++ "</em>" else t2
    let t4 := if r.bold then "<strong>" ++ t3 ++ "</strong>" else t3
    let t5 := if r.underline then "<u>" ++ t4 ++ "</u>" else t4
    let t6 := if r.strike then "<s>" ++ t5 ++ "</s>" else t5
    match r.color with
    | some c =>
      if c != "" && pyLower c != "auto" then
        "<span class=\"sm-text-color-" ++ c ++ "\">" ++ t6 ++ "</span>"
      else t6
    | none => t6
  else ""

/-- `extract_formatted_text`: the concatenated run markup and the
paragraph alignment; an empty paragraph that carries an alignment
returns a single space instead. -/
def extract_formatted_text (p : Paragraph) : String × Option String :=
  let paragraph_alignment :=
    match p.jc with
    | some v => if v != "" then some v else none
    | none => none
  let has_text := p.runs.any fun r => !r.texts.isEmpty
  if !has_text && paragraph_alignment.isSome then (" ", paragraph_alignment)
  else (strJoin (p.runs.map formatRun), paragraph_alignment)

/-- `check_is_bold`: more than half of the runs carry `w:b`. -/
def check_is_bold (p : Paragraph) : Bool :=
  if p.runs.isEmpty then false
  else 2 * (p.runs.countP fun r => r.bold) > p.runs.length

/-- `get_font_size`: the single size used by all sized runs, in
half-points (`None` when absent or mixed); the source divides by two,
so every point comparison below is doubled instead. -/
def get_font_size (p : Paragraph) : Option Nat :=
  let sizes := p.runs.filterMap fun r => r.sz
  match sizes with
  | [] => none
  | x :: xs => if xs.all fun y => y == x then some x else none

/-- `check_heading_formatting`: bold majority, or an effective font size
of at least 14pt (28 half-points, nonzero as Python's truthiness
requires), or a `w:spacing` element. -/
def check_heading_formatting (p : Paragraph) : Bool :=
  check_is_bold p ||
    (match get_font_size p with
     | some hp => hp != 0 && hp ≥ 28
     | none => false) ||
    p.spacing

/-- The classifier's output block: a text block with its subtype, a code
block, or delegation of a drawing paragraph to the image resolver (out of
the classifier's scope, modelled separately for claim C8). -/
inductive Block where
  | text (text_type : String) (text : String) (alignment : Option String)
  | code (code : String) (language : String)
  | imageFrom
deriving Repr, DecidableEq

def create_text_block (text_type text : String) (alignment : Option String) : Block :=
  Block.text text_type text alignment

/-- `create_code_block` with `language=None`: the language is
auto-detected. -/
def create_code_block (code_content : String) : Block :=
  Block.code code_content (detect_code_language code_content)

/-- First maximal digit run of a style id (`re.findall(r'\d+', style_id)[0]`). -/
def firstDigitRunAux : List Char → Option (List Char)
  | [] => none
  | c :: cs =>
    if c.isDigit then some (c :: cs.takeWhile Char.isDigit) else firstDigitRunAux cs

def digitsToNat (l : List Char) : Nat := l.foldl (fun n c => n * 10 + (c.toNat - 48)) 0

def styleHeadingLevel (style_id : String) : Option Nat :=
  (firstDigitRunAux style_id.toList).map digitsToNat

/-- `str.isupper()` (ASCII): at least one cased character and no
lowercase one. -/
def pyIsUpper (s : String) : Bool :=
  (s.toList.any fun c => c.isAlpha) && !(s.toList.any fun c => c.isLower)

/-- `re.search(r'[.!?]$', text)` on stripped text. -/
def endsSentencePunct (s : String) : Bool :=
  match s.toList.getLast? with
  | some c => c == '.' || c == '!' || c == '?'
  | none => false

/-- The font-size refinement inside the `check_heading_formatting`
branch: ≥20pt → h2, ≥16pt → h3, ≥14pt → h4, otherwise fall through
(thresholds doubled: half-points). -/
def headingFontBlock (p : Paragraph) (text : String) (alignment : Option String) :
    Option Block :=
  if check_heading_formatting p then
    match get_font_size p with
    | some hp =>
      if hp != 0 then
        if hp ≥ 40 then some (create_text_block ("h2") text alignment)
        else if hp ≥ 32 then some (create_text_block ("h3") text alignment)
        else if hp ≥ 28 then some (create_text_block ("h4") text alignment)
        else none
      else none
    | none => none
  else none

/-- The content heuristics: short all-caps → h2; short, no terminal
sentence punctuation and bold majority → h3; otherwise paragraph. -/
def classify_content (p : Paragraph) (text : String) (alignment : Option String) : Block :=
  if pyLen (pyStrip text) < 50 then
    if pyIsUpper (pyStrip text) then create_text_block ("h2") text alignment
    else if !endsSentencePunct (pyStrip text) && check_is_bold p then
      create_text_block ("h3") text alignment
    else create_text_block ("paragraph") text alignment
  else create_text_block ("paragraph") text alignment

/-- The style-keyword stage: title/heading/nadpis → h2, quote/citation →
quote, code/source → code block; otherwise the content heuristics. -/
def classify_style_keywords (p : Paragraph) (text : String) (alignment : Option String) :
    Block :=
  match p.style with
  | some s =>
    let style_lower := pyLower s
    if strContains style_lower ("title") || strContains style_lower ("heading") ||
        strContains style_lower ("nadpis") then create_text_block ("h2") text alignment
    else if strContains style_lower ("quote") || strContains style_lower ("citation") then
      create_text_block ("quote") text alignment
    else if strContains style_lower ("code") || strContains style_lower ("source") then
      create_code_block text
    else classify_content p text alignment
  | none => classify_content p text alignment

/-- `process_docx_paragraph`: the classifier cascade in source order —
drawing delegation, empty-text handling, outline level, style-id digit,
formatting/font-size heuristic, style keywords, content heuristics,
default paragraph. -/
def process_docx_paragraph (p : Paragraph) : Option Block :=
  if p.hasDrawing then some Block.imageFrom
  else
    let tt := extract_formatted_text p
    let text := tt.1
    let alignment := tt.2
    if text == "" || pyStrip text == "" then
      if alignment.isSome then some (create_text_block ("paragraph") ("") alignment)
      else none
    else if p.outlineLvl == some 0 then some (create_text_block ("h2") text alignment)
    else if p.outlineLvl == some 1 then some (create_text_block ("h3") text alignment)
    else if p.outlineLvl == some 2 then some (create_text_block ("h4") text alignment)
    else
      let hl :=
        match p.style with
        | some sid => if sid != "" then styleHeadingLevel sid else none
        | none => none
      if hl == some 1 then some (create_text_block ("h2") text alignment)
      else if hl == some 2 then some (create_text_block ("h3") text alignment)
      else if hl == some 3 then some (create_text_block ("h4") text alignment)
      else
        match headingFontBlock p text alignment with
        | some b => some b
        | none => some (classify_style_keywords p text alignment)

/-- The paragraph refuting claim C3: style `Quote`, one unformatted run
of uniform 14pt (28 half-point) text. -/
def c3QuotePara : Paragraph :=
  { style := some ("Quote"), hasDrawing := false, jc := none, outlineLvl := none
    spacing := false
    runs := [{ bold := false, italic := false, underline := false, strike := false
               vertAlign := none, color := none, texts := ["Wise words here"]
               hasBr := false, sz := some 28, hyperlink := none }] }

/-- A majority-bold paragraph styled `Quote` with no usable font size,
for the amended claim C3 witness. -/
def c3BoldQuotePara : Paragraph :=
  { style := some ("Quote"), hasDrawing := false, jc := none, outlineLvl := none
    spacing := false
    runs := [{ bold := true, italic := false, underline := false, strike := false
               vertAlign := none, color := none, texts := ["Remember this"]
               hasBr := false, sz := none, hyperlink := none }] }

/-- An empty aligned paragraph for the claim C10 witness. -/
def c10Para : Paragraph :=
  { style := none, hasDrawing := false, jc := some ("center"), outlineLvl := none
    spacing := false, runs := [] }


/-! ## Image resolver display rule (`determine_image_display`) -/

/-- The `wp:positionH` element: the text of its `wp:align` child when
present with text, and the `relativeFrom` attribute when present. -/
structure PositionH where
  align : Option String
  relativeFrom : Option String
deriving Repr, DecidableEq

/-- The wrap/position information `determine_image_display` reads from a
drawing element. -/
structure Drawing where
  wrapSquare : Bool
  wrapTight : Bool
  wrapThrough : Bool
  wrapTopBottom : Bool
  positionH : Option PositionH
deriving Repr, DecidableEq

/-- One of `wrapSquare`/`wrapTight`/`wrapThrough`/`wrapTopBottom` is
present. -/
def drawingIsWrapped (dr : Drawing) : Bool :=
  dr.wrapSquare || dr.wrapTight || dr.wrapThrough || dr.wrapTopBottom

def wrappedB : Option Drawing → Bool
  | some dr => drawingIsWrapped dr
  | none => false

/-- `determine_image_display`, with the pixel dimensions read from the
copied file abstracted to an optional pair (`none`: no readable file,
leaving `width = height = 0` as in the source) and `16/9 ≤ width/height`
decided exactly on rationals by cross multiplication.  Returns
`(display_type, float_alignment)`. -/
def determine_image_display (dims : Option (Nat × Nat)) (drawing : Option Drawing) :
    String × Option String :=
  let wrapInfo : Bool × Option String :=
    match drawing with
    | some dr =>
      if drawingIsWrapped dr then
        let fa :=
          match dr.positionH with
          | some ph =>
            let a1 :=
              match ph.align with
              | some t =>
                if t != "" then
                  if pyLower t == "left" then "start"
                  else if pyLower t == "right" then "end"
                  else "end"
                else "end"
              | none => "end"
            match ph.relativeFrom with
            | some rf =>
              if rf == "right" || rf == "rightMargin" then "end"
              else if rf == "left" || rf == "leftMargin" then "start"
              else a1
            | none => a1
          | none => "end"
        (true, some fa)
      else (false, none)
    | none => (false, none)
  let is_wrapped := wrapInfo.1
  let float_alignment := wrapInfo.2
  let wh := dims.getD (0, 0)
  let width := wh.1
  let height := wh.2
  let display_type :=
    if width > 1200 && (height > 0 && 16 * height ≤ 9 * width) then "wide"
    else if width < 800 || is_wrapped then "float"
    else "standard"
  (display_type, float_alignment)

/-- The `relativeFrom` attribute names a right-side anchor. -/
def relFromRight (dr : Drawing) : Bool :=
  match dr.positionH with
  | some ph =>
    match ph.relativeFrom with
    | some rf => rf == "right" || rf == "rightMargin"
    | none => false
  | none => false

/-- The `relativeFrom` attribute names a left-side anchor. -/
def relFromLeft (dr : Drawing) : Bool :=
  match dr.positionH with
  | some ph =>
    match ph.relativeFrom with
    | some rf => rf == "left" || rf == "leftMargin"
    | none => false
  | none => false

/-- An explicit non-empty `wp:align` text equal to `left` (lowered). -/
def alignTextLeft (dr : Drawing) : Bool :=
  match dr.positionH with
  | some ph =>
    match ph.align with
    | some t => t != "" && pyLower t == "left"
    | none => false
  | none => false

/-- A wrapped wide drawing anchored left, for the claim C8 witness. -/
def c8Drawing : Drawing :=
  { wrapSquare := true, wrapTight := false, wrapThrough := false, wrapTopBottom := false
    positionH := some { align := none, relativeFrom := some ("leftMargin") } }

/-! ## Publish phase 1 (`create_storymap` content-block loop) -/

/-- A content block as fed to `create_storymap` (the dict keys its
dispatch reads). -/
inductive CBlock where
  | text (text_type : String) (text : String) (alignment : Option String)
  | code (code : String) (language : String)
  | image (path : String) (caption : Option String) (display : Option String)
      (float_alignment : Option String)
  | table (rows : List (List String)) (caption : Option String)
  | separator
deriving Repr, DecidableEq

/-- An entry of `parsed_blocks` as stored by the `add_*_block` helpers. -/
inductive PBlock where
  | text (text_type : String) (text : String) (alignment : Option String)
  | code (code : String) (language : String)
  | table (rows : List (List String)) (caption : Option String)
  | image (caption : Option String) (display : Option String)
      (float_alignment : Option String) (dimensions : Option (Nat × Nat)) (path : String)
  | separator
deriving Repr, DecidableEq

/-- `not text_content or text_content.strip() == "" or text_content == "..."`. -/
def pyBlankText (t : String) : Bool := t == "" || pyStrip t == "" || t == "..."

/-- The mutable state of the phase-1 loop: the next node id the remote
service would hand out (`story.add`, modelled as a counter), the
`placeholder_ids` and `parsed_blocks` maps, and the `blocks_added`
counter. -/
structure Phase1State where
  nextId : Nat
  placeholder_ids : List (String × Nat)
  parsed_blocks : List (Nat × PBlock)
  blocks_added : Nat
deriving Repr, DecidableEq

/-- One iteration of the `for i, block in enumerate(content_blocks)`
loop of `create_storymap`, with the filesystem read of
`extract_image_dimensions` abstracted by `dims`.  Text blocks whose
content is blank or `"..."` are skipped; every other block type always
creates one node (in particular `add_code_block` performs no emptiness
check). -/
def addBlockStep (dims : String → Option (Nat × Nat)) (st : Phase1State)
    (ib : Nat × CBlock) : Phase1State :=
  let i := ib.1
  match ib.2 with
  | .separator =>
    { nextId := st.nextId + 1
      placeholder_ids := st.placeholder_ids ++ [("separator_" ++ toString i, st.nextId)]
      parsed_blocks := st.parsed_blocks ++ [(st.nextId, PBlock.separator)]
      blocks_added := st.blocks_added + 1 }
  | .image path cap disp fal =>
    { nextId := st.nextId + 1
      placeholder_ids := st.placeholder_ids ++ [("image_" ++ toString i, st.nextId)]
      parsed_blocks := st.parsed_blocks ++
        [(st.nextId, PBlock.image cap disp fal (dims path) path)]
      blocks_added := st.blocks_added + 1 }
  | .text tt txt al =>
    if pyBlankText txt then st
    else
      { nextId := st.nextId + 1
        placeholder_ids := st.placeholder_ids ++ [("text_" ++ toString i, st.nextId)]
        parsed_blocks := st.parsed_blocks ++ [(st.nextId, PBlock.text tt txt al)]
        blocks_added := st.blocks_added + 1 }
  | .table rows cap =>
    { nextId := st.nextId + 1
      placeholder_ids := st.placeholder_ids ++ [("table_" ++ toString i, st.nextId)]
      parsed_blocks := st.parsed_blocks ++ [(st.nextId, PBlock.table rows cap)]
      blocks_added := st.blocks_added + 1 }
  | .code c l =>
    { nextId := st.nextId + 1
      placeholder_ids := st.placeholder_ids ++ [("code_" ++ toString i, st.nextId)]
      parsed_blocks := st.parsed_blocks ++ [(st.nextId, PBlock.code c l)]
      blocks_added := st.blocks_added + 1 }

/-- The phase-1 content-block loop of `create_storymap`. -/
def create_storymap_phase1 (dims : String → Option (Nat × Nat)) (blocks : List CBlock) :
    Phase1State :=
  blocks.enum.foldl (addBlockStep dims)
    { nextId := 0, placeholder_ids := [], parsed_blocks := [], blocks_added := 0 }

def pblockIsBlankText : PBlock → Bool
  | .text _ t _ => pyBlankText t
  | _ => false

def pblockIsCode : PBlock → Bool
  | .code _ _ => true
  | _ => false

def cblockIsCode : CBlock → Bool
  | .code _ _ => true
  | _ => false

/-! ## Publish phase 2 (`update_storymap_content`) -/

/-- Ordered association-list primitives modelling Python dicts: updating
an existing key keeps its position, a fresh key is appended. -/
def getAssoc {α : Type} (k : Nat) : List (Nat × α) → Option α
  | [] => none
  | (k2, v) :: rest => if k = k2 then some v else getAssoc k rest

def setAssoc {α : Type} (k : Nat) (v : α) : List (Nat × α) → List (Nat × α)
  | [] => [(k, v)]
  | (k2, v2) :: rest => if k = k2 then (k2, v) :: rest else (k2, v2) :: setAssoc k v rest

/-- The `cells` JSON subtree: row index → column index → value (the
source wraps each value in `{"value": …}`, collapsed to the string). -/
abbrev Cells := List (Nat × List (Nat × String))

structure NodeConfig where
  size : Option String := none
  floatAlignment : Option String := none
deriving Repr, DecidableEq

/-- The data fields of a remote node that phase 2 reads or writes. -/
structure NodeData where
  text : Option String := none
  content : Option String := none
  lang : Option String := none
  lineNumbers : Option Bool := none
  textAlignment : Option String := none
  numRows : Option Nat := none
  numColumns : Option Nat := none
  cells : Option Cells := none
  caption : Option String := none
  image : Option String := none
deriving Repr, DecidableEq

/-- A remote node: `type`, optional `data`, optional `config`. -/
structure SNode where
  type : String
  data : Option NodeData := none
  config : Option NodeConfig := none
deriving Repr, DecidableEq

/-- The `language_mapping` table of `update_storymap_content`. -/
def language_mapping : List (String × String) :=
  [("text", "txt"), ("python", "py"), ("javascript", "js"), ("typescript", "ts"),
   ("java", "java"), ("csharp", "cs"), ("html", "html"), ("css", "css"),
   ("ruby", "rb"), ("php", "php"), ("c", "c"), ("cpp", "cpp"), ("go", "go"),
   ("sql", "sql"), ("shell", "sh"), ("xml", "xml"), ("json", "json"),
   ("yaml", "yaml"), ("markdown", "md"), ("r", "r"), ("swift", "swift"),
   ("kotlin", "kt")]

def lookupStr (k : String) : List (String × String) → Option String
  | [] => none
  | (k2, v) :: rest => if k == k2 then some v else lookupStr k rest

def mapLanguage (l : String) : String := (lookupStr l language_mapping).getD ("txt")

/-- `alignment_map` of the text patch. -/
def alignment_map : List (String × String) :=
  [("center", "center"), ("right", "end"), ("justify", "justify"), ("left", "start")]

/-- `if str(row_idx) not in cells: cells[str(row_idx)] = {}`. -/
def ensureRow (r : Nat) (c : Cells) : Cells :=
  if (getAssoc r c).isSome then c else c ++ [(r, [])]

/-- `cells[str(row_idx)][str(col_idx)] = {"value": cell_value}`. -/
def setCell (r ci : Nat) (v : String) (cells : Cells) : Cells :=
  let row := (getAssoc r cells).getD []
  setAssoc r (setAssoc ci v row) cells

def populateRowCells (ri : Nat) : Nat → List String → Nat → Cells → Cells
  | _, [], _, cells => cells
  | ci, v :: rest, nc, cells =>
    populateRowCells ri (ci + 1) rest nc (if ci < nc then setCell ri ci v cells else cells)

/-- The per-row cell population loop (columns beyond `num_cols` are
skipped). -/
def populateRow (ri : Nat) (row : List String) (nc : Nat) (cells : Cells) : Cells :=
  populateRowCells ri 0 row nc (ensureRow ri cells)

def populateCellsFrom : Nat → List (List String) → Nat → Cells → Cells
  | _, [], _, cells => cells
  | ri, row :: rest, nc, cells => populateCellsFrom (ri + 1) rest nc (populateRow ri row nc cells)

/-- The nested `for row_idx, row in enumerate(rows)` population of the
table patch, merging into the existing cell map. -/
def populateCells (rows : List (List String)) (nc : Nat) (cells : Cells) : Cells :=
  populateCellsFrom 0 rows nc cells

/-- `cells[str(r)][str(ci)]`, when present. -/
def getCell (r ci : Nat) (cells : Cells) : Option String :=
  match getAssoc r cells with
  | some row => getAssoc ci row
  | none => none

/-- Python truthiness of an optional string. -/
def truthyOpt : Option String → Bool
  | some s => s != ""
  | none => false

/-- The per-node body of the `update_storymap_content` loop.  Returns
the patched node (`none`: the node was popped) and its contribution to
the `replacements` counter.  The second blank check of the text branch
(`if not text_content …` after the pop) is unreachable and therefore has
no counterpart here. -/
def updateNode (parsed : List (Nat × PBlock)) (node_id : Nat) (node : SNode) :
    Option SNode × Nat :=
  let codeStep : Option (Option SNode × Nat) :=
    if node.type == "text" then
      match getAssoc node_id parsed with
      | some (.code c l) =>
        some (some { node with
          type := "code"
          data := some { text := none, content := some c
                         lang := some (mapLanguage (pyLower l)), lineNumbers := some true
                         textAlignment := none, numRows := none, numColumns := none
                         cells := none, caption := none, image := none } }, 1)
      | _ => none
    else none
  match codeStep with
  | some r => r
  | none =>
    if node.type == "text" then
      match node.data with
      | some d =>
        match d.text with
        | some t =>
          if strStartsWith t ("PLACEHOLDER_TEXT_") then
            match getAssoc node_id parsed with
            | some (.text _ txt al) =>
              if pyBlankText txt then (none, 0)
              else
                let d2 := { d with text := some txt }
                let d3 :=
                  match al with
                  | some a =>
                    match lookupStr a alignment_map with
                    | some m => { d2 with textAlignment := some m }
                    | none => d2
                  | none => d2
                (some { node with data := some d3 }, 1)
            | _ => (some node, 0)
          else (some node, 0)
        | none => (some node, 0)
      | none => (some node, 0)
    else if node.type == "table" then
      match node.data with
      | some d =>
        match getAssoc node_id parsed with
        | some (.table rows cap) =>
          let num_rows := rows.length
          let num_cols := if rows.isEmpty then 0 else (rows.map List.length).foldl max 0
          let cells1 := populateCells rows num_cols (d.cells.getD [])
          let d2 := { d with numRows := some num_rows, numColumns := some num_cols
                             cells := some cells1 }
          let d3 :=
            match cap with
            | some c => if c != "" then { d2 with caption := some c } else d2
            | none => d2
          (some { node with data := some d3 }, 1)
        | _ => (some node, 0)
      | none => (some node, 0)
    else if node.type == "image" then
      match node.data with
      | some d =>
        match getAssoc node_id parsed with
        | some (.image cap disp fal _ _) =>
          let step1 : SNode × Nat :=
            match cap with
            | some c =>
              if c != "" then
                ({ node with data := some { d with caption := some c } }, 1)
              else (node, 0)
            | none => (node, 0)
          let step2 : SNode × Nat :=
            if disp == some ("float") && truthyOpt fal then
              let cfg := step1.1.config.getD {}
              ({ step1.1 with
                  config := some { cfg with size := some ("float"), floatAlignment := fal } }, 1)
            else (step1.1, 0)
          (some step2.1, step1.2 + step2.2)
        | _ => (some node, 0)
      | none => (some node, 0)
    else (some node, 0)

/-- `update_storymap_content`: walk the nodes in order; returns the new
node map, the `replacements` counter and the number of popped nodes. -/
def update_storymap_content (nodes : List (Nat × SNode)) (parsed : List (Nat × PBlock)) :
    List (Nat × SNode) × Nat × Nat :=
  nodes.foldl
    (fun acc p =>
      match updateNode parsed p.1 p.2 with
      | (some n2, c) => (acc.1 ++ [(p.1, n2)], acc.2.1 + c, acc.2.2)
      | (none, c) => (acc.1, acc.2.1 + c, acc.2.2 + 1))
    ([], 0, 0)

/-- No node's text is a phase-1 placeholder marker. -/
def noPlaceholderText (nodes : List (Nat × SNode)) : Bool :=
  nodes.all fun p =>
    match p.2.data with
    | some d =>
      match d.text with
      | some t => !strStartsWith t ("PLACEHOLDER_TEXT_")
      | none => true
    | none => true

/-- The placeholder map tracks only text and code blocks, and no tracked
text content itself starts with the placeholder marker. -/
def parsedTextCodeOnly (parsed : List (Nat × PBlock)) : Bool :=
  parsed.all fun p =>
    match p.2 with
    | .table _ _ => false
    | .image _ _ _ _ _ => false
    | .text _ txt _ => !strStartsWith txt ("PLACEHOLDER_TEXT_")
    | _ => true

/-- The node map refuting claim C5: one table node whose data already
carries the final patched content of the one tracked table block. -/
def c5Nodes : List (Nat × SNode) :=
  [(5, { type := "table"
         data := some { numRows := some 1, numColumns := some 1
                        cells := some [(0, [(0, "x")])] } })]

def c5Parsed : List (Nat × PBlock) := [(5, PBlock.table [["x"]] none)]

/-- A one-placeholder document and its tracked text block, for the
amended claim C5 witness. -/
def c5WitnessNodes : List (Nat × SNode) :=
  [(0, { type := "text", data := some { text := some ("PLACEHOLDER_TEXT_0") } })]

def c5WitnessParsed : List (Nat × PBlock) :=
  [(0, PBlock.text ("paragraph") ("Hello there") none)]

/-- Concrete grouping input used to refute claim C1: a level-0 item of
list 1, then a level-1 item of list 2, then a level-0 item of list 3. -/
def c1Input : List (Nat × List RawItem) :=
  [(1, [{ text := "a", level := 0, type := "bullet-list", element_index := 0 }]),
   (2, [{ text := "b", level := 1, type := "bullet-list", element_index := 1 }]),
   (3, [{ text := "c", level := 0, type := "bullet-list", element_index := 2 }])]

/-- The concrete list group of the spec scenario for claim C2:
items (L0,"A"), (L1,"B"), (L2,"C"), (L1,"D"). -/
def c2Group : Group :=
  { type := some ("numbered-list"), document_position := 0
    items :=
      [{ text := "A", level := 0, original_type := "numbered-list", group_index := 0 },
       { text := "B", level := 1, original_type := "numbered-list", group_index := 1 },
       { text := "C", level := 2, original_type := "numbered-list", group_index := 2 },
       { text := "D", level := 1, original_type := "numbered-list", group_index := 3 }] }

/-! ## Theorems -/

theorem some_beq_some_nat (a b : Nat) : (some a == some b) = (a == b) := rfl

theorem gItemsFrom_length (i : Nat) (l : List FlatItem) :
    (gItemsFrom i l).length = l.length := by
  induction l generalizing i with
  | nil => rfl
  | cons x xs ih => simp [gItemsFrom, ih]

theorem gItemsFrom_append (i : Nat) (l : List FlatItem) (x : FlatItem) :
    gItemsFrom i (l ++ [x]) =
      gItemsFrom i l ++
        [{ text := x.text, level := x.level, original_type := x.type
           group_index := i + l.length }] := by
  induction l generalizing i with
  | nil => simp [gItemsFrom]
  | cons y ys ih =>
    have h : i + 1 + ys.length = i + (ys.length + 1) := by omega
    simp [gItemsFrom, ih, h]

theorem mkGroup_items_length (pending : List FlatItem) :
    (mkGroup pending).items.length = pending.length := by
  simp [mkGroup, gItemsFrom_length]

theorem mkGroup_items_isEmpty (pending : List FlatItem) (hne : pending ≠ []) :
    (mkGroup pending).items.isEmpty = false := by
  cases pending with
  | nil => exact absurd rfl hne
  | cons p ps => rfl

theorem mkGroup_append (pending : List FlatItem) (x : FlatItem) (hne : pending ≠ []) :
    mkGroup (pending ++ [x]) =
      { type :=
          match (mkGroup pending).type with
          | some t => some t
          | none => if x.level == 0 then some x.type else none
        document_position := (mkGroup pending).document_position
        items := (mkGroup pending).items ++
          [{ text := x.text, level := x.level, original_type := x.type
             group_index := pending.length }] } := by
  have hty :
      (Option.map (fun it => it.type) ((pending ++ [x]).find? fun it => it.level == 0)) =
        match (mkGroup pending).type with
        | some t => some t
        | none => if x.level == 0 then some x.type else none := by
    rw [List.find?_append]
    cases hfind : pending.find? fun it => it.level == 0 with
    | some t => simp [mkGroup, hfind]
    | none =>
      cases hx : x.level == 0 with
      | true => simp [mkGroup, hfind, List.find?, hx]
      | false => simp [mkGroup, hfind, List.find?, hx]
  have hdp : ((pending ++ [x]).head?.map (·.element_index)).getD 0 =
      (mkGroup pending).document_position := by
    cases pending with
    | nil => exact absurd rfl hne
    | cons p ps => simp [mkGroup]
  simp only [mkGroup, gItemsFrom_append, Nat.zero_add] at *
  rw [Group.mk.injEq]
  exact ⟨hty, hdp, rfl⟩

theorem foldl_groupStep_eq (xs : List FlatItem) :
    ∀ (done : List Group) (pending : List FlatItem) (prev : FlatItem),
      pending ≠ [] → pending.getLast? = some prev →
      (let st := xs.foldl groupStep
          { groups := done, current := mkGroup pending
            current_num_id := some prev.num_id, last_level := some prev.level };
        st.groups ++ (if st.current.items.isEmpty then [] else [st.current]))
      = done ++ (splitRunsGo prev pending xs).map mkGroup := by
  induction xs with
  | nil =>
    intro done pending prev hne _hlast
    simp [splitRunsGo, mkGroup_items_isEmpty pending hne]
  | cons x xs ih =>
    intro done pending prev hne hlast
    have hitems : (mkGroup pending).items.isEmpty = false :=
      mkGroup_items_isEmpty pending hne
    simp only [List.foldl_cons]
    have hstart :
        (x.level == 0 && !(mkGroup pending).items.isEmpty &&
          (some prev.level == some 0) && (some prev.num_id != some x.num_id))
        = amendedBoundary prev x := by
      rw [hitems]
      simp [amendedBoundary, some_beq_some_nat, Bool.and_assoc, Bool.and_comm, Bool.and_left_comm]
    cases hb : amendedBoundary prev x with
    | true =>
      have hcond :
          (x.level == 0 && !(mkGroup pending).items.isEmpty &&
            (some prev.level == some 0) && (some prev.num_id != some x.num_id)) = true := by
        rw [hstart]; exact hb
      have hx0 : (x.level == 0) = true := by
        have h2 := hb
        simp only [amendedBoundary, Bool.and_eq_true] at h2
        exact h2.1.1
      have hstep :
          groupStep
            { groups := done, current := mkGroup pending
              current_num_id := some prev.num_id, last_level := some prev.level } x
          = { groups := done ++ [mkGroup pending], current := mkGroup [x]
              current_num_id := some x.num_id, last_level := some x.level } := by
        simp only [groupStep]
        rw [hcond, hitems]
        simp only [if_true, Bool.false_eq_true, if_false]
        simp [mkGroup, gItemsFrom, List.find?, hx0]
      rw [hstep, ih (done ++ [mkGroup pending]) [x] x (by simp) (by simp)]
      simp [splitRunsGo, hb]
    | false =>
      have hcond :
          (x.level == 0 && !(mkGroup pending).items.isEmpty &&
            (some prev.level == some 0) && (some prev.num_id != some x.num_id)) = false := by
        rw [hstart]; exact hb
      have hstep :
          groupStep
            { groups := done, current := mkGroup pending
              current_num_id := some prev.num_id, last_level := some prev.level } x
          = { groups := done, current := mkGroup (pending ++ [x])
              current_num_id := some x.num_id, last_level := some x.level } := by
        simp only [groupStep]
        rw [hcond]
        simp only [Bool.false_eq_true, if_false]
        rw [mkGroup_append pending x hne]
        cases htype : (mkGroup pending).type with
        | some t => simp [htype, mkGroup_items_length]
        | none =>
          simp only [htype]
          cases hx : x.level == 0 with
          | true => simp [hx, mkGroup_items_length]
          | false => simp [hx, mkGroup_items_length]
      rw [hstep, ih done (pending ++ [x]) x (by simp) (by simp)]
      simp [splitRunsGo, hb]

/-- The grouping loop groups exactly at amended boundaries (helper shared
by several claims). -/
theorem group_list_items_eq_amendedGroups (all : List (Nat × List RawItem)) :
    group_list_items all = amendedGroups all := by
  unfold group_list_items amendedGroups
  cases hflat : sortByPos (buildFlat all) with
  | nil => simp [splitRuns]
  | cons x xs =>
    simp only [List.foldl_cons]
    have hstep0 :
        groupStep
          { groups := [], current := { type := none, document_position := x.element_index, items := [] }
            current_num_id := none, last_level := none } x
        = { groups := [], current := mkGroup [x]
            current_num_id := some x.num_id, last_level := some x.level } := by
      simp only [groupStep, List.isEmpty_nil, Bool.not_true, Bool.and_false, Bool.false_and,
        Bool.false_eq_true, if_false]
      cases hx : x.level == 0 with
      | true => simp [mkGroup, gItemsFrom, List.find?, hx]
      | false => simp [mkGroup, gItemsFrom, List.find?, hx]
    rw [hstep0, foldl_groupStep_eq xs [] [x] x (by simp) (by simp)]
    simp [splitRuns]

/-- Claim C1, counterexample: on `c1Input` the claim as stated predicts a
new group at the third item (a level-0 item whose numbering id 3 differs
from the last level-0 item's id 1, with only a deeper-level item of
another id in between), yet `group_list_items` returns a single group of
all three items. -/
theorem C1_counterexample :
    claimStartsNewGroup (sortByPos (buildFlat c1Input)) 2 = true
    ∧ (group_list_items c1Input).length = 1
    ∧ (group_list_items c1Input).map (fun g => g.items.length) = [3] := by
  refine ⟨rfl, rfl, rfl⟩

/-- Claim C1 (amended): a new group is started exactly when a level-0 item
immediately follows another item that is itself at level 0 and carries a
different numbering id; whenever the immediately preceding item is at a
deeper level — whatever its numbering id — no new group is started, so in
particular returning to level 0 from a deeper level never starts a new
group, even when the deeper items belonged to another numbering id. -/
theorem C1_amended (all : List (Nat × List RawItem)) :
    group_list_items all = amendedGroups all :=
  group_list_items_eq_amendedGroups all

theorem insertByPos_length (x : FlatItem) (l : List FlatItem) :
    (insertByPos x l).length = l.length + 1 := by
  induction l with
  | nil => rfl
  | cons y ys ih =>
    simp only [insertByPos]
    split
    · simp
    · simp [ih]

theorem sortByPos_length (l : List FlatItem) : (sortByPos l).length = l.length := by
  induction l with
  | nil => rfl
  | cons x xs ih => simp [sortByPos, insertByPos_length, ih]

theorem buildFlat_length (all : List (Nat × List RawItem)) :
    (buildFlat all).length = (all.map fun p => p.2.length).sum := by
  simp only [buildFlat, List.length_flatten, List.map_map]
  congr 1
  apply List.map_congr_left
  intro p _
  simp

theorem splitRunsGo_sum (xs : List FlatItem) :
    ∀ (prev : FlatItem) (acc : List FlatItem),
      ((splitRunsGo prev acc xs).map List.length).sum = acc.length + xs.length := by
  induction xs with
  | nil => intro prev acc; simp [splitRunsGo]
  | cons x xs ih =>
    intro prev acc
    simp only [splitRunsGo]
    split
    · simp [ih]; omega
    · simp [ih]; omega

theorem splitRunsGo_ne_nil (xs : List FlatItem) :
    ∀ (prev : FlatItem) (acc : List FlatItem), acc ≠ [] →
      ∀ r ∈ splitRunsGo prev acc xs, r ≠ [] := by
  induction xs with
  | nil => intro prev acc hacc r hr; simp [splitRunsGo] at hr; exact hr ▸ hacc
  | cons x xs ih =>
    intro prev acc hacc r hr
    simp only [splitRunsGo] at hr
    split at hr
    · rcases List.mem_cons.mp hr with h | h
      · exact h ▸ hacc
      · exact ih x [x] (by simp) r h
    · exact ih x (acc ++ [x]) (by simp) r hr

/-- Claim C9: grouping neither loses nor duplicates items — the total
number of items across all output groups equals the total number of input
items — and every output group is non-empty. -/
theorem C9_grouping_preserves_items (all : List (Nat × List RawItem)) :
    ((group_list_items all).map fun g => g.items.length).sum
        = (all.map fun p => p.2.length).sum
    ∧ ∀ g ∈ group_list_items all, g.items ≠ [] := by
  rw [group_list_items_eq_amendedGroups]
  constructor
  · unfold amendedGroups
    rw [List.map_map]
    have h1 : ((splitRuns (sortByPos (buildFlat all))).map ((fun g => g.items.length) ∘ mkGroup))
        = (splitRuns (sortByPos (buildFlat all))).map List.length := by
      apply List.map_congr_left
      intro r _hr
      simp [mkGroup_items_length]
    rw [h1]
    have h2 : ((splitRuns (sortByPos (buildFlat all))).map List.length).sum
        = (sortByPos (buildFlat all)).length := by
      cases hs : sortByPos (buildFlat all) with
      | nil => simp [splitRuns]
      | cons x xs => simp [splitRuns, splitRunsGo_sum, Nat.add_comm]
    rw [h2, sortByPos_length, buildFlat_length]
  · intro g hg
    unfold amendedGroups at hg
    obtain ⟨r, hr, rfl⟩ := List.mem_map.mp hg
    have hrne : r ≠ [] := by
      cases hs : sortByPos (buildFlat all) with
      | nil => rw [hs] at hr; simp [splitRuns] at hr
      | cons x xs =>
        rw [hs] at hr
        exact splitRunsGo_ne_nil xs x [x] (by simp) r hr
    intro h
    have hlen := congrArg List.length h
    simp only [mkGroup, gItemsFrom_length, List.length_nil] at hlen
    exact hrne (List.length_eq_zero.mp hlen)

/-- Claim C9 witness at a concrete input. -/
theorem C9_witness :
    ((group_list_items c1Input).map fun g => g.items.length).sum
        = (c1Input.map fun p => p.2.length).sum
    ∧ ({ type := some ("bullet-list"), document_position := 0
         items :=
           [{ text := "a", level := 0, original_type := "bullet-list", group_index := 0 },
            { text := "b", level := 1, original_type := "bullet-list", group_index := 1 },
            { text := "c", level := 0, original_type := "bullet-list", group_index := 2 }] } : Group).items
        ≠ [] :=
  ⟨(C9_grouping_preserves_items c1Input).1,
   (C9_grouping_preserves_items c1Input).2 _ (by decide)⟩

/-- Claim C2: Stage-B flattening rewrites exactly the items of a group
that sit more than one level above the group minimum, pulling them to
`min_level + 1` and prefixing `"--- "` once per excess level, and leaves
every other item unchanged; on the spec scenario (L0,"A") (L1,"B")
(L2,"C") (L1,"D") it yields levels 0,1,1,1 with "C" becoming "--- C". -/
theorem C2_flatten_rule :
    (∀ (gs : List Group) (i : Nat) (g : Group), gs.get? i = some g →
      (flatten_list_hierarchy gs).get? i = some
        { g with items := g.items.map fun it =>
            if it.level - minLevel g.items > 1 then
              { it with
                text := repeatStr ("--- ") (it.level - minLevel g.items - 1) ++ it.text
                level := minLevel g.items + 1 }
            else it })
    ∧ flatten_list_hierarchy [c2Group] =
        [{ type := some ("numbered-list"), document_position := 0
           items :=
             [{ text := "A", level := 0, original_type := "numbered-list", group_index := 0 },
              { text := "B", level := 1, original_type := "numbered-list", group_index := 1 },
              { text := "--- C", level := 1, original_type := "numbered-list", group_index := 2 },
              { text := "D", level := 1, original_type := "numbered-list", group_index := 3 }] }] := by
  constructor
  · intro gs i g hg
    simp only [flatten_list_hierarchy, List.get?_eq_getElem?, List.getElem?_map] at hg ⊢
    rw [hg]
    rfl
  · rfl

/-- Claim C2 witness: the general rule applied to the concrete spec
scenario group at index 0. -/
theorem C2_witness :
    ([c2Group].get? 0 = some c2Group)
    ∧ (flatten_list_hierarchy [c2Group]).get? 0 = some
        { c2Group with items := c2Group.items.map fun it =>
            if it.level - minLevel c2Group.items > 1 then
              { it with
                text := repeatStr ("--- ") (it.level - minLevel c2Group.items - 1) ++ it.text
                level := minLevel c2Group.items + 1 }
            else it } :=
  ⟨rfl, C2_flatten_rule.1 [c2Group] 0 c2Group rfl⟩

theorem minAux_le (l : List GItem) : ∀ m : Nat, minAux m l ≤ m := by
  induction l with
  | nil => intro m; simp [minAux]
  | cons y ys ih =>
    intro m
    calc minAux m (y :: ys) = minAux (min m y.level) ys := rfl
      _ ≤ min m y.level := ih _
      _ ≤ m := Nat.min_le_left _ _

theorem minAux_le_mem (l : List GItem) :
    ∀ (m : Nat) (it : GItem), it ∈ l → minAux m l ≤ it.level := by
  induction l with
  | nil => intro m it h; cases h
  | cons y ys ih =>
    intro m it h
    rcases List.mem_cons.mp h with h1 | h1
    · subst h1
      calc minAux m (it :: ys) = minAux (min m it.level) ys := rfl
        _ ≤ min m it.level := minAux_le _ _
        _ ≤ it.level := Nat.min_le_right _ _
    · exact ih _ it h1

theorem minAux_attained (l : List GItem) :
    ∀ m : Nat, minAux m l = m ∨ ∃ it ∈ l, minAux m l = it.level := by
  induction l with
  | nil => intro m; left; rfl
  | cons y ys ih =>
    intro m
    rcases ih (min m y.level) with h | ⟨it, hmem, heq⟩
    · rcases Nat.le_total m y.level with hle | hle
      · left
        calc minAux m (y :: ys) = minAux (min m y.level) ys := rfl
          _ = min m y.level := h
          _ = m := Nat.min_eq_left hle
      · right
        refine ⟨y, List.mem_cons_self _ _, ?_⟩
        calc minAux m (y :: ys) = minAux (min m y.level) ys := rfl
          _ = min m y.level := h
          _ = y.level := Nat.min_eq_right hle
    · right
      exact ⟨it, List.mem_cons_of_mem _ hmem, heq⟩

theorem minLevel_le_mem (l : List GItem) (it : GItem) (h : it ∈ l) :
    minLevel l ≤ it.level := by
  cases l with
  | nil => cases h
  | cons y ys =>
    rcases List.mem_cons.mp h with h1 | h1
    · subst h1; exact minAux_le ys it.level
    · exact minAux_le_mem ys y.level it h1

theorem minLevel_attained (l : List GItem) (hne : l ≠ []) :
    ∃ it ∈ l, it.level = minLevel l := by
  cases l with
  | nil => exact absurd rfl hne
  | cons y ys =>
    rcases minAux_attained ys y.level with h | ⟨it, hmem, heq⟩
    · exact ⟨y, List.mem_cons_self _ _, h.symm⟩
    · exact ⟨it, List.mem_cons_of_mem _ hmem, heq.symm⟩

theorem minLevel_eq_of (l : List GItem) (m : Nat)
    (hlb : ∀ it ∈ l, m ≤ it.level) (hmem : ∃ it ∈ l, it.level = m) :
    minLevel l = m := by
  obtain ⟨it0, h0, heq⟩ := hmem
  have h1 : minLevel l ≤ m := heq ▸ minLevel_le_mem l it0 h0
  have h2 : m ≤ minLevel l := by
    cases l with
    | nil => cases h0
    | cons y ys =>
      rcases minAux_attained ys y.level with h | ⟨it, hmemy, heqy⟩
      · calc m ≤ y.level := hlb y (List.mem_cons_self _ _)
          _ = minLevel (y :: ys) := by rw [minLevel, h]
      · calc m ≤ it.level := hlb it (List.mem_cons_of_mem _ hmemy)
          _ = minLevel (y :: ys) := by rw [minLevel, heqy]
  omega

theorem flattenItem_level_le (m : Nat) (it : GItem) (_hm : m ≤ it.level) :
    (flattenItem m it).level ≤ m + 1 := by
  simp only [flattenItem]
  split
  next => exact Nat.le_refl _
  next => omega

theorem flattenItem_level_ge (m : Nat) (it : GItem) (hm : m ≤ it.level) :
    m ≤ (flattenItem m it).level := by
  simp only [flattenItem]
  split
  next => exact Nat.le_succ m
  next =>
    exact hm

theorem flattenItem_of_attained (m : Nat) (it : GItem) (h : it.level = m) :
    flattenItem m it = it := by
  simp only [flattenItem]
  split
  next hgt => exact absurd hgt (by omega)
  next => rfl

theorem minLevel_map_flattenItem (l : List GItem) :
    minLevel (l.map (flattenItem (minLevel l))) = minLevel l := by
  cases hl : l with
  | nil => rfl
  | cons y ys =>
    rw [← hl]
    have hne : l ≠ [] := by rw [hl]; simp
    apply minLevel_eq_of
    · intro it2 h2
      obtain ⟨it, hmem, rfl⟩ := List.mem_map.mp h2
      exact flattenItem_level_ge _ it (minLevel_le_mem l it hmem)
    · obtain ⟨it0, h0, heq⟩ := minLevel_attained l hne
      refine ⟨it0, ?_, heq⟩
      rw [← flattenItem_of_attained (minLevel l) it0 heq]
      exact List.mem_map_of_mem _ h0

theorem flattenItem_idem (m : Nat) (it : GItem) :
    flattenItem m (flattenItem m it) = flattenItem m it := by
  by_cases h : it.level - m > 1
  · have hfirst : flattenItem m it =
        { it with text := repeatStr ("--- ") (it.level - m - 1) ++ it.text, level := m + 1 } := by
      simp [flattenItem, h]
    rw [hfirst]
    have h2 : m + 1 - m = 1 := by omega
    simp [flattenItem, h2]
  · simp [flattenItem, h]

theorem flattenGroup_idem (g : Group) :
    flattenGroup (flattenGroup g) = flattenGroup g := by
  simp only [flattenGroup, minLevel_map_flattenItem, List.map_map]
  congr 1
  apply List.map_congr_left
  intro it _
  exact flattenItem_idem _ it

/-- Claim C6: Stage-B flattening is idempotent, and after one pass no
item's level exceeds the group minimum plus one. -/
theorem C6_flatten_idempotent (gs : List Group) :
    flatten_list_hierarchy (flatten_list_hierarchy gs) = flatten_list_hierarchy gs
    ∧ ∀ g ∈ flatten_list_hierarchy gs, ∀ it ∈ g.items,
        it.level ≤ minLevel g.items + 1 := by
  constructor
  · simp only [flatten_list_hierarchy, List.map_map]
    apply List.map_congr_left
    intro g _
    exact flattenGroup_idem g
  · intro g2 hg2 it2 hit2
    obtain ⟨g, _hg, rfl⟩ := List.mem_map.mp hg2
    simp only [flattenGroup] at hit2 ⊢
    rw [minLevel_map_flattenItem]
    obtain ⟨it, hmem, rfl⟩ := List.mem_map.mp hit2
    exact flattenItem_level_le _ it (minLevel_le_mem g.items it hmem)

/-- Claim C6 witness at the concrete spec scenario group. -/
theorem C6_witness :
    flatten_list_hierarchy (flatten_list_hierarchy [c2Group]) = flatten_list_hierarchy [c2Group]
    ∧ ({ text := "--- C", level := 1, original_type := "numbered-list", group_index := 2 } :
        GItem).level ≤
        minLevel ({ type := some ("numbered-list"), document_position := 0
                    items :=
                      [{ text := "A", level := 0, original_type := "numbered-list", group_index := 0 },
                       { text := "B", level := 1, original_type := "numbered-list", group_index := 1 },
                       { text := "--- C", level := 1, original_type := "numbered-list", group_index := 2 },
                       { text := "D", level := 1, original_type := "numbered-list", group_index := 3 }] } :
          Group).items + 1 :=
  ⟨(C6_flatten_idempotent [c2Group]).1,
   (C6_flatten_idempotent [c2Group]).2 _ (by decide) _ (by decide)⟩

/-- Claim C7: the code language detector returns `sql`, `json`, `py` and
the plain-text tag `txt` on the four spec examples. -/
theorem C7_detector_examples :
    detect_code_language ("SELECT * FROM t WHERE id=1") = "sql"
    ∧ detect_code_language ("\x7b\"a\":1\x7d") = "json"
    ∧ detect_code_language ("def f():\n    pass") = "py"
    ∧ detect_code_language ("hello world") = "txt" :=
  ⟨by decide, by decide, by decide, by decide⟩

/-- Claim C3, counterexample: the paragraph `c3QuotePara` has style name
`Quote` (containing the quote keyword) and a uniform 14pt font size, yet
the classifier returns an `h4` heading, not a quote — the formatting
font-size heuristic runs before the style-keyword stage. -/
theorem C3_counterexample :
    process_docx_paragraph c3QuotePara = some (Block.text ("h4") ("Wise words here") none)
    ∧ strContains (pyLower ("Quote")) ("quote") = true
    ∧ get_font_size c3QuotePara = some 28
    ∧ check_heading_formatting c3QuotePara = true :=
  ⟨by decide, by decide, by decide, by decide⟩

/-- Claim C3 (amended): the cascade evaluates the formatting/font-size
heuristic before the style-name keyword stage; a paragraph whose style
name contains "quote" or "citation" (and no title/heading keyword) is
classified as a quote provided no earlier rule fires — in particular
when its runs are merely majority-bold without a uniform font size of
14pt or more; with such a font size the heuristic wins and yields a
heading instead. -/
theorem C3_amended (p : Paragraph)
    (hnd : p.hasDrawing = false)
    (htext : pyStrip (extract_formatted_text p).1 ≠ "")
    (hout : ∀ l : Int, p.outlineLvl = some l → l ≠ 0 ∧ l ≠ 1 ∧ l ≠ 2)
    (hsid : ∀ sid, p.style = some sid → ∀ n, styleHeadingLevel sid = some n →
      n ≠ 1 ∧ n ≠ 2 ∧ n ≠ 3)
    (hfont : ∀ hp, get_font_size p = some hp → check_heading_formatting p = true → hp < 28)
    (hstyle : ∀ s, p.style = some s →
      (strContains (pyLower s) ("quote") = true ∨ strContains (pyLower s) ("citation") = true)
      ∧ strContains (pyLower s) ("title") = false
      ∧ strContains (pyLower s) ("heading") = false
      ∧ strContains (pyLower s) ("nadpis") = false)
    (hsome : p.style.isSome = true) :
    process_docx_paragraph p =
      some (Block.text ("quote") (extract_formatted_text p).1 (extract_formatted_text p).2) := by
  obtain ⟨s, hs⟩ := Option.isSome_iff_exists.mp hsome
  have hkw := hstyle s hs
  have htxne : ((extract_formatted_text p).1 == "") = false := by
    rcases h : (extract_formatted_text p).1 == "" with _ | _
    · rfl
    · exact absurd (by rw [eq_of_beq h]; rfl) htext
  have htsne : (pyStrip (extract_formatted_text p).1 == "") = false :=
    beq_eq_false_iff_ne.mpr htext
  have ho0 : (p.outlineLvl == some 0) = false := by
    cases hov : p.outlineLvl with
    | none => rfl
    | some l => exact beq_eq_false_iff_ne.mpr (by simp [(hout l hov).1])
  have ho1 : (p.outlineLvl == some 1) = false := by
    cases hov : p.outlineLvl with
    | none => rfl
    | some l => exact beq_eq_false_iff_ne.mpr (by simp [(hout l hov).2.1])
  have ho2 : (p.outlineLvl == some 2) = false := by
    cases hov : p.outlineLvl with
    | none => rfl
    | some l => exact beq_eq_false_iff_ne.mpr (by simp [(hout l hov).2.2])
  have hfb : ∀ text al, headingFontBlock p text al = none := by
    intro text al
    unfold headingFontBlock
    cases hch : check_heading_formatting p with
    | false => simp
    | true =>
      cases hfs : get_font_size p with
      | none => simp
      | some hp =>
        have hlt := hfont hp hfs hch
        have h40 : ¬ (40 ≤ hp) := by omega
        have h32 : ¬ (32 ≤ hp) := by omega
        have h28 : ¬ (28 ≤ hp) := by omega
        simp [h40, h32, h28]
  have hsk : ∀ text al, classify_style_keywords p text al =
      create_text_block ("quote") text al := by
    intro text al
    unfold classify_style_keywords
    rw [hs]
    simp only [hkw.2.1, hkw.2.2.1, hkw.2.2.2, Bool.or_self, Bool.false_or, Bool.or_false,
      Bool.false_eq_true, if_false]
    rcases hkw.1 with h | h <;> simp [h]
  have hhl : (if s != "" then styleHeadingLevel s else none) ≠ some 1
      ∧ (if s != "" then styleHeadingLevel s else none) ≠ some 2
      ∧ (if s != "" then styleHeadingLevel s else none) ≠ some 3 := by
    by_cases hse : s = ""
    · subst hse; simp
    · rw [if_pos (by simpa using hse)]
      cases hsl : styleHeadingLevel s with
      | none => simp
      | some n =>
        have := hsid s hs n hsl
        simp [this.1, this.2.1, this.2.2]
  unfold process_docx_paragraph
  rw [hnd]
  simp only [Bool.false_eq_true, if_false, hs, htxne, htsne, ho0, ho1, ho2,
    Bool.or_self, Bool.false_or, Bool.or_false]
  rw [beq_eq_false_iff_ne.mpr hhl.1, beq_eq_false_iff_ne.mpr hhl.2.1,
    beq_eq_false_iff_ne.mpr hhl.2.2]
  simp only [Bool.false_eq_true, if_false, hfb, hsk]
  rfl

/-- Claim C3 (amended) witness: a majority-bold quote-styled paragraph
with no usable font size is classified as a quote. -/
theorem C3_amended_witness :
    process_docx_paragraph c3BoldQuotePara =
      some (Block.text ("quote") ("<strong>Remember this</strong>") none) := by
  have h := C3_amended c3BoldQuotePara rfl (by decide)
    (by intro l hl; simp [c3BoldQuotePara] at hl)
    (by intro sid hsid n hn
        simp only [c3BoldQuotePara, Option.some.injEq] at hsid
        subst hsid
        simp [styleHeadingLevel, firstDigitRunAux] at hn)
    (by intro hp hfs _
        simp [c3BoldQuotePara, get_font_size] at hfs)
    (by intro t ht
        simp only [c3BoldQuotePara, Option.some.injEq] at ht
        subst ht
        exact ⟨Or.inl (by decide), by decide, by decide, by decide⟩)
    (by decide)
  exact h

theorem strJoin_all_empty (l : List String) (h : ∀ s ∈ l, s = "") : strJoin l = "" := by
  induction l with
  | nil => rfl
  | cons s rest ih =>
    rw [strJoin, h s (by simp), ih fun x hx => h x (List.mem_cons_of_mem _ hx)]
    rfl

/-- Claim C10: an empty paragraph with an explicit alignment survives —
extraction returns a single space plus the alignment and the classifier
emits a paragraph block with empty text and that alignment — while an
empty paragraph without alignment yields no block. -/
theorem C10_empty_aligned_paragraph (p : Paragraph)
    (hnd : p.hasDrawing = false)
    (hruns : ∀ r ∈ p.runs, r.texts = [] ∧ r.hasBr = false) :
    (∀ a, p.jc = some a → a ≠ "" →
      extract_formatted_text p = (" ", some a)
      ∧ process_docx_paragraph p = some (Block.text ("paragraph") ("") (some a)))
    ∧ (p.jc = none → process_docx_paragraph p = none) := by
  have hht : (p.runs.any fun r => !r.texts.isEmpty) = false := by
    rw [List.any_eq_false]
    intro r hr
    simp [(hruns r hr).1]
  have hjoin : strJoin (p.runs.map formatRun) = "" := by
    apply strJoin_all_empty
    intro sx hsx
    obtain ⟨r, hr, rfl⟩ := List.mem_map.mp hsx
    obtain ⟨h1, h2⟩ := hruns r hr
    unfold formatRun
    rw [h1, h2]
    rfl
  constructor
  · intro a hjc ha
    have hext : extract_formatted_text p = (" ", some a) := by
      unfold extract_formatted_text
      rw [hjc, hht]
      simp [ha]
    refine ⟨hext, ?_⟩
    unfold process_docx_paragraph
    rw [hnd]
    simp only [Bool.false_eq_true, if_false, hext]
    rfl
  · intro hjc
    have hext : extract_formatted_text p = ("", none) := by
      unfold extract_formatted_text
      rw [hjc, hht]
      simp [hjoin]
    unfold process_docx_paragraph
    rw [hnd]
    simp only [Bool.false_eq_true, if_false, hext]
    rfl

/-- Claim C10 witness: a runless centered paragraph. -/
theorem C10_witness :
    extract_formatted_text c10Para = (" ", some ("center"))
    ∧ process_docx_paragraph c10Para = some (Block.text ("paragraph") ("") (some ("center"))) :=
  (C10_empty_aligned_paragraph c10Para rfl (by intro r hr; cases hr)).1
    "center" rfl (by decide)

/-- Claim C8: the display mode is `wide` exactly for width > 1200 with
aspect ratio at least 16:9, otherwise `float` exactly for width < 800 or
a present text-wrapping marker, and `standard` in the remaining cases;
the float alignment is computed only for wrapped drawings, defaults to
`end`, and is overridden by a left/right `relativeFrom` anchor first and
an explicit left `wp:align` text second. -/
theorem C8_display_rule (w h : Nat) (dr : Option Drawing) :
    ((determine_image_display (some (w, h)) dr).1 = "wide"
      ↔ (1200 < w ∧ 0 < h ∧ 16 * h ≤ 9 * w))
    ∧ ((determine_image_display (some (w, h)) dr).1 = "float"
      ↔ (¬(1200 < w ∧ 0 < h ∧ 16 * h ≤ 9 * w) ∧ (w < 800 ∨ wrappedB dr = true)))
    ∧ ((determine_image_display (some (w, h)) dr).1 = "standard"
      ↔ (¬(1200 < w ∧ 0 < h ∧ 16 * h ≤ 9 * w) ∧ ¬(w < 800 ∨ wrappedB dr = true)))
    ∧ (wrappedB dr = false → (determine_image_display (some (w, h)) dr).2 = none)
    ∧ (∀ d, dr = some d → wrappedB dr = true →
        (determine_image_display (some (w, h)) dr).2 =
          some (if relFromRight d then "end"
                else if relFromLeft d then "start"
                else if alignTextLeft d then "start"
                else "end")) := by
  have hdisp : (determine_image_display (some (w, h)) dr).1 =
      (if w > 1200 && (h > 0 && 16 * h ≤ 9 * w) then "wide"
       else if w < 800 || wrappedB dr then "float"
       else "standard") := by
    cases dr with
    | none => rfl
    | some d =>
      unfold determine_image_display wrappedB
      cases hw : drawingIsWrapped d <;> simp [hw]
  have hfa : (determine_image_display (some (w, h)) dr).2 =
      (match dr with
       | some d =>
         if drawingIsWrapped d then
           some (if relFromRight d then "end"
                 else if relFromLeft d then "start"
                 else if alignTextLeft d then "start"
                 else "end")
         else none
       | none => none) := by
    cases dr with
    | none => rfl
    | some d =>
      unfold determine_image_display
      cases hw : drawingIsWrapped d with
      | false => simp [hw]
      | true =>
        simp only [hw, if_true]
        congr 1
        cases hph : d.positionH with
        | none => simp [relFromRight, relFromLeft, alignTextLeft, hph]
        | some ph =>
          simp only [relFromRight, relFromLeft, alignTextLeft, hph]
          cases hrf : ph.relativeFrom with
          | some rf =>
            by_cases hr : (rf == "right" || rf == "rightMargin") = true
            · simp [hr]
            · simp only [hr, Bool.false_eq_true, if_false,
                (by revert hr; cases rf == "right" <;> cases rf == "rightMargin" <;> simp :
                  (rf == "right" || rf == "rightMargin") = false)]
              by_cases hl : (rf == "left" || rf == "leftMargin") = true
              · simp [hl]
              · simp only [hl, Bool.false_eq_true, if_false,
                  (by revert hl; cases rf == "left" <;> cases rf == "leftMargin" <;> simp :
                    (rf == "left" || rf == "leftMargin") = false)]
                cases hal : ph.align with
                | none => rfl
                | some t =>
                  by_cases hte : (t != "") = true
                  · by_cases htl : (pyLower t == "left") = true
                    · simp [hte, htl]
                    · by_cases htr : (pyLower t == "right") = true
                      · simp [hte, htl, htr]
                      · simp [hte, htl, htr]
                  · simp only [Bool.not_eq_true] at hte
                    simp [hte]
          | none =>
            cases hal : ph.align with
            | none => rfl
            | some t =>
              by_cases hte : (t != "") = true
              · by_cases htl : (pyLower t == "left") = true
                · simp [hte, htl]
                · by_cases htr : (pyLower t == "right") = true
                  · simp [hte, htl, htr]
                  · simp [hte, htl, htr]
              · simp only [Bool.not_eq_true] at hte
                simp [hte]
  have hdisp2 : (determine_image_display (some (w, h)) dr).1 =
      (if 1200 < w ∧ 0 < h ∧ 16 * h ≤ 9 * w then "wide"
       else if w < 800 ∨ wrappedB dr = true then "float"
       else "standard") := by
    rw [hdisp]
    by_cases h1 : 1200 < w <;> by_cases h2 : 0 < h <;> by_cases h3 : 16 * h ≤ 9 * w <;>
      by_cases h4 : w < 800 <;> cases h5 : wrappedB dr <;>
      simp [h1, h2, h3, h4, h5]
  refine ⟨?_, ?_, ?_, ?_, ?_⟩
  · rw [hdisp2]
    by_cases hA : 1200 < w ∧ 0 < h ∧ 16 * h ≤ 9 * w
    · rw [if_pos hA]
      exact ⟨fun _ => hA, fun _ => rfl⟩
    · rw [if_neg hA]
      constructor
      · intro hq
        by_cases hB : w < 800 ∨ wrappedB dr = true
        · rw [if_pos hB] at hq
          exact absurd hq (by decide)
        · rw [if_neg hB] at hq
          exact absurd hq (by decide)
      · intro hq
        exact absurd hq hA
  · rw [hdisp2]
    by_cases hA : 1200 < w ∧ 0 < h ∧ 16 * h ≤ 9 * w
    · rw [if_pos hA]
      exact ⟨fun hq => absurd hq (by decide), fun hq => absurd hA hq.1⟩
    · rw [if_neg hA]
      by_cases hB : w < 800 ∨ wrappedB dr = true
      · rw [if_pos hB]
        exact ⟨fun _ => ⟨hA, hB⟩, fun _ => rfl⟩
      · rw [if_neg hB]
        exact ⟨fun hq => absurd hq (by decide), fun hq => absurd hq.2 hB⟩
  · rw [hdisp2]
    by_cases hA : 1200 < w ∧ 0 < h ∧ 16 * h ≤ 9 * w
    · rw [if_pos hA]
      exact ⟨fun hq => absurd hq (by decide), fun hq => absurd hA hq.1⟩
    · rw [if_neg hA]
      by_cases hB : w < 800 ∨ wrappedB dr = true
      · rw [if_pos hB]
        exact ⟨fun hq => absurd hq (by decide), fun hq => absurd hB hq.2⟩
      · rw [if_neg hB]
        exact ⟨fun _ => ⟨hA, hB⟩, fun _ => rfl⟩
  · intro hw
    rw [hfa]
    cases dr with
    | none => rfl
    | some d =>
      simp only [wrappedB] at hw
      simp [hw]
  · intro d hd hw
    subst hd
    simp only [wrappedB] at hw
    rw [hfa]
    simp [hw]

/-- Claim C8 witness: a 1300×700 wrapped drawing anchored `leftMargin`
is `wide` with float alignment `start`. -/
theorem C8_witness :
    (determine_image_display (some (1300, 700)) (some c8Drawing)).1 = "wide"
    ∧ (determine_image_display (some (1300, 700)) (some c8Drawing)).2 = some ("start") := by
  refine ⟨((C8_display_rule 1300 700 (some c8Drawing)).1).mpr (by decide), ?_⟩
  have h := (C8_display_rule 1300 700 (some c8Drawing)).2.2.2.2 c8Drawing rfl (by decide)
  rw [h]
  decide

/-- Claim C4, counterexample: an empty code block still creates a node
and is recorded in the placeholder map (its `add_code_block` has no
emptiness check), while a blank text block is indeed skipped. -/
theorem C4_counterexample :
    (create_storymap_phase1 (fun _ => none) [CBlock.code ("") ("py")]).parsed_blocks
      = [(0, PBlock.code ("") ("py"))]
    ∧ (create_storymap_phase1 (fun _ => none) [CBlock.code ("") ("py")]).placeholder_ids
      = [("code_0", 0)]
    ∧ (create_storymap_phase1 (fun _ => none)
        [CBlock.text ("paragraph") ("...") none]).parsed_blocks = [] :=
  ⟨by decide, by decide, by decide⟩

theorem phase1_fold (dims : String → Option (Nat × Nat)) (l : List (Nat × CBlock)) :
    ∀ st : Phase1State,
      (∀ e ∈ st.parsed_blocks, pblockIsBlankText e.2 = false) →
      (∀ e ∈ (l.foldl (addBlockStep dims) st).parsed_blocks, pblockIsBlankText e.2 = false)
      ∧ ((l.foldl (addBlockStep dims) st).parsed_blocks.countP fun e => pblockIsCode e.2)
        = (st.parsed_blocks.countP fun e => pblockIsCode e.2)
          + (l.countP fun e => cblockIsCode e.2) := by
  induction l with
  | nil => intro st hst; exact ⟨hst, by simp⟩
  | cons ib rest ih =>
    intro st hst
    rw [List.foldl_cons, List.countP_cons]
    have hstep :
        (∀ e ∈ (addBlockStep dims st ib).parsed_blocks, pblockIsBlankText e.2 = false)
        ∧ ((addBlockStep dims st ib).parsed_blocks.countP fun e => pblockIsCode e.2)
          = (st.parsed_blocks.countP fun e => pblockIsCode e.2)
            + (if cblockIsCode ib.2 then 1 else 0) := by
      cases hb : ib.2 with
      | separator =>
        refine ⟨?_, by simp [addBlockStep, hb, List.countP_append, pblockIsCode, cblockIsCode]⟩
        intro e he
        simp only [addBlockStep, hb] at he
        rcases List.mem_append.mp he with h | h
        · exact hst e h
        · simp only [List.mem_singleton] at h
          subst h
          rfl
      | image path cap disp fal =>
        refine ⟨?_, by simp [addBlockStep, hb, List.countP_append, pblockIsCode, cblockIsCode]⟩
        intro e he
        simp only [addBlockStep, hb] at he
        rcases List.mem_append.mp he with h | h
        · exact hst e h
        · simp only [List.mem_singleton] at h
          subst h
          rfl
      | table rows cap =>
        refine ⟨?_, by simp [addBlockStep, hb, List.countP_append, pblockIsCode, cblockIsCode]⟩
        intro e he
        simp only [addBlockStep, hb] at he
        rcases List.mem_append.mp he with h | h
        · exact hst e h
        · simp only [List.mem_singleton] at h
          subst h
          rfl
      | code c lng =>
        refine ⟨?_, by simp [addBlockStep, hb, List.countP_append, pblockIsCode, cblockIsCode]⟩
        intro e he
        simp only [addBlockStep, hb] at he
        rcases List.mem_append.mp he with h | h
        · exact hst e h
        · simp only [List.mem_singleton] at h
          subst h
          rfl
      | text tt txt al =>
        by_cases hblank : pyBlankText txt = true
        · constructor
          · intro e he
            simp only [addBlockStep, hb, hblank, if_true] at he
            exact hst e he
          · simp [addBlockStep, hb, hblank, cblockIsCode]
        · have hbf : pyBlankText txt = false := by
            cases hx : pyBlankText txt
            · rfl
            · exact absurd hx hblank
          constructor
          · intro e he
            simp only [addBlockStep, hb, hbf, Bool.false_eq_true, if_false] at he
            rcases List.mem_append.mp he with h | h
            · exact hst e h
            · simp only [List.mem_singleton] at h
              subst h
              simpa [pblockIsBlankText] using hbf
          · simp [addBlockStep, hb, hbf, List.countP_append, pblockIsCode, cblockIsCode]
    obtain ⟨hinv2, hcnt2⟩ := ih (addBlockStep dims st ib) hstep.1
    refine ⟨hinv2, ?_⟩
    rw [hcnt2, hstep.2]
    omega

theorem countP_enumFrom (q : CBlock → Bool) (l : List CBlock) :
    ∀ n, ((List.enumFrom n l).countP fun e => q e.2) = l.countP q := by
  induction l with
  | nil => intro n; rfl
  | cons b rest ih =>
    intro n
    rw [List.enumFrom_cons, List.countP_cons, List.countP_cons, ih]

/-- Claim C4 (amended): phase 1 skips exactly the blank text blocks —
no blank text block is ever recorded — while every code block always
creates and records one node, whatever its content. -/
theorem C4_amended (dims : String → Option (Nat × Nat)) (blocks : List CBlock) :
    (∀ e ∈ (create_storymap_phase1 dims blocks).parsed_blocks,
      pblockIsBlankText e.2 = false)
    ∧ ((create_storymap_phase1 dims blocks).parsed_blocks.countP
        fun e => pblockIsCode e.2) = blocks.countP cblockIsCode := by
  have h := phase1_fold dims blocks.enum
    { nextId := 0, placeholder_ids := [], parsed_blocks := [], blocks_added := 0 }
    (by intro e he; cases he)
  refine ⟨h.1, ?_⟩
  rw [create_storymap_phase1] at *
  rw [h.2, List.enum, countP_enumFrom]
  simp

/-- Claim C4 (amended) witness: one blank text block (skipped) and one
empty code block (recorded). -/
theorem C4_amended_witness :
    ((0, PBlock.code ("") ("py")) ∈ (create_storymap_phase1 (fun _ => none)
        [CBlock.code ("") ("py")]).parsed_blocks →
      pblockIsBlankText (PBlock.code ("") ("py")) = false)
    ∧ ((create_storymap_phase1 (fun _ => none)
        [CBlock.text ("x") ("...") none, CBlock.code ("") ("py")]).parsed_blocks.countP
          fun e => pblockIsCode e.2)
      = [CBlock.text ("x") ("...") none, CBlock.code ("") ("py")].countP cblockIsCode :=
  ⟨fun hm => (C4_amended (fun _ => none) [CBlock.code ("") ("py")]).1 _ hm,
   (C4_amended (fun _ => none) [CBlock.text ("x") ("...") none, CBlock.code ("") ("py")]).2⟩

/-! ### Association-map and cell-population lemmas for claim C5 -/

theorem getAssoc_setAssoc_self {α : Type} (k : Nat) (v : α) (m : List (Nat × α)) :
    getAssoc k (setAssoc k v m) = some v := by
  induction m with
  | nil => simp [setAssoc, getAssoc]
  | cons p rest ih =>
    obtain ⟨k2, v2⟩ := p
    by_cases h : k = k2
    · simp [setAssoc, getAssoc, h]
    · simp [setAssoc, getAssoc, h, ih]

theorem getAssoc_setAssoc_ne {α : Type} (k k2 : Nat) (v : α) (m : List (Nat × α))
    (h : k ≠ k2) : getAssoc k (setAssoc k2 v m) = getAssoc k m := by
  induction m with
  | nil => simp [setAssoc, getAssoc, h]
  | cons p rest ih =>
    obtain ⟨k3, v3⟩ := p
    by_cases h2 : k2 = k3
    · subst h2
      simp [setAssoc, getAssoc, h]
    · by_cases h3 : k = k3
      · simp [setAssoc, getAssoc, h2, h3]
      · simp [setAssoc, getAssoc, h2, h3, ih]

theorem setAssoc_eq_self {α : Type} (k : Nat) (v : α) (m : List (Nat × α))
    (h : getAssoc k m = some v) : setAssoc k v m = m := by
  induction m with
  | nil => simp [getAssoc] at h
  | cons p rest ih =>
    obtain ⟨k2, v2⟩ := p
    by_cases h2 : k = k2
    · subst h2
      have hv : v2 = v := by
        simp [getAssoc] at h
        exact h
      simp [setAssoc, hv]
    · simp only [getAssoc, h2, if_false] at h
      simp [setAssoc, h2, ih h]

theorem getAssoc_setAssoc_isSome {α : Type} (k k2 : Nat) (v : α) (m : List (Nat × α))
    (h : (getAssoc k m).isSome = true) :
    (getAssoc k (setAssoc k2 v m)).isSome = true := by
  by_cases he : k = k2
  · subst he
    rw [getAssoc_setAssoc_self]
    rfl
  · rw [getAssoc_setAssoc_ne _ _ _ _ he]
    exact h

theorem getAssoc_append {α : Type} (k : Nat) (a b : List (Nat × α)) :
    getAssoc k (a ++ b) =
      match getAssoc k a with
      | some v => some v
      | none => getAssoc k b := by
  induction a with
  | nil => simp [getAssoc]
  | cons p rest ih =>
    obtain ⟨k2, v2⟩ := p
    by_cases h : k = k2
    · simp [getAssoc, h]
    · simp [getAssoc, h, ih]

theorem getAssoc_ensureRow_self (r : Nat) (c : Cells) :
    (getAssoc r (ensureRow r c)).isSome = true := by
  unfold ensureRow
  by_cases h : (getAssoc r c).isSome = true
  · simp [h]
  · rw [if_neg h, getAssoc_append]
    cases hx : getAssoc r c with
    | some v => rw [hx] at h; exact absurd rfl h
    | none => simp [getAssoc]

theorem getAssoc_ensureRow_ne (r r2 : Nat) (c : Cells) (h : r ≠ r2) :
    getAssoc r (ensureRow r2 c) = getAssoc r c := by
  unfold ensureRow
  by_cases h2 : (getAssoc r2 c).isSome = true
  · simp [h2]
  · rw [if_neg h2, getAssoc_append]
    cases hx : getAssoc r c with
    | some v => rfl
    | none => simp [getAssoc, h]

theorem ensureRow_of_isSome (r : Nat) (c : Cells) (h : (getAssoc r c).isSome = true) :
    ensureRow r c = c := by
  unfold ensureRow
  rw [if_pos h]

theorem getCell_setCell_self (r ci : Nat) (v : String) (cells : Cells) :
    getCell r ci (setCell r ci v cells) = some v := by
  unfold getCell setCell
  simp [getAssoc_setAssoc_self]

theorem getCell_setCell_ne (r ci r2 ci2 : Nat) (v : String) (cells : Cells)
    (h : ¬(r = r2 ∧ ci = ci2)) :
    getCell r ci (setCell r2 ci2 v cells) = getCell r ci cells := by
  by_cases hr : r = r2
  · subst hr
    have hci : ci ≠ ci2 := fun he => h ⟨rfl, he⟩
    unfold getCell setCell
    rw [getAssoc_setAssoc_self]
    cases hav : getAssoc r cells with
    | some row => simp [getAssoc_setAssoc_ne _ _ _ _ hci]
    | none => simp [getAssoc_setAssoc_ne _ _ _ _ hci, getAssoc, hci]
  · unfold getCell setCell
    rw [getAssoc_setAssoc_ne _ _ _ _ hr]

theorem setCell_eq_self (r ci : Nat) (v : String) (cells : Cells)
    (h : getCell r ci cells = some v) : setCell r ci v cells = cells := by
  unfold getCell at h
  cases hav : getAssoc r cells with
  | none => rw [hav] at h; cases h
  | some row =>
    rw [hav] at h
    unfold setCell
    rw [hav]
    simp only [Option.getD_some]
    rw [setAssoc_eq_self ci v row h, setAssoc_eq_self r row cells hav]

theorem getAssoc_setCell_isSome (r r2 ci2 : Nat) (v : String) (cells : Cells)
    (h : (getAssoc r cells).isSome = true) :
    (getAssoc r (setCell r2 ci2 v cells)).isSome = true := by
  unfold setCell
  exact getAssoc_setAssoc_isSome _ _ _ _ h

theorem getAssoc_setCell_ne (r r2 ci2 : Nat) (v : String) (cells : Cells) (h : r ≠ r2) :
    getAssoc r (setCell r2 ci2 v cells) = getAssoc r cells := by
  unfold setCell
  exact getAssoc_setAssoc_ne _ _ _ _ h

theorem populateRowCells_getAssoc_ne (ri : Nat) (row : List String) :
    ∀ (ci nc : Nat) (cells : Cells) (r2 : Nat), r2 ≠ ri →
      getAssoc r2 (populateRowCells ri ci row nc cells) = getAssoc r2 cells := by
  induction row with
  | nil => intro ci nc cells r2 _h; rfl
  | cons v rest ih =>
    intro ci nc cells r2 h
    rw [populateRowCells, ih _ _ _ _ h]
    by_cases hci : ci < nc
    · rw [if_pos hci, getAssoc_setCell_ne _ _ _ _ _ h]
    · rw [if_neg hci]

theorem populateRowCells_isSome (ri : Nat) (row : List String) :
    ∀ (ci nc : Nat) (cells : Cells), (getAssoc ri cells).isSome = true →
      (getAssoc ri (populateRowCells ri ci row nc cells)).isSome = true := by
  induction row with
  | nil => intro ci nc cells h; exact h
  | cons v rest ih =>
    intro ci nc cells h
    rw [populateRowCells]
    apply ih
    by_cases hci : ci < nc
    · rw [if_pos hci]
      exact getAssoc_setCell_isSome _ _ _ _ _ h
    · rw [if_neg hci]
      exact h

theorem populateRowCells_getCell_lt (ri : Nat) (row : List String) :
    ∀ (ci nc : Nat) (cells : Cells) (ci2 : Nat), ci2 < ci →
      getCell ri ci2 (populateRowCells ri ci row nc cells) = getCell ri ci2 cells := by
  induction row with
  | nil => intro ci nc cells ci2 _h; rfl
  | cons v rest ih =>
    intro ci nc cells ci2 h
    rw [populateRowCells, ih _ _ _ _ (Nat.lt_succ_of_lt h)]
    by_cases hci : ci < nc
    · rw [if_pos hci, getCell_setCell_ne _ _ _ _ _ _ (by rintro ⟨-, h2⟩; omega)]
    · rw [if_neg hci]

theorem populateRowCells_done (ri : Nat) (row : List String) :
    ∀ (ci nc : Nat) (cells : Cells) (j : Nat) (v : String),
      row.get? j = some v → ci + j < nc →
      getCell ri (ci + j) (populateRowCells ri ci row nc cells) = some v := by
  induction row with
  | nil => intro ci nc cells j v hj _; cases j <;> cases hj
  | cons v0 rest ih =>
    intro ci nc cells j v hj hlt
    rw [populateRowCells]
    cases j with
    | zero =>
      simp only [List.get?] at hj
      cases hj
      have hci : ci < nc := by omega
      rw [if_pos hci]
      have h0 : ci + 0 = ci := rfl
      rw [h0, populateRowCells_getCell_lt ri rest (ci + 1) nc _ ci (Nat.lt_succ_self ci)]
      exact getCell_setCell_self ri ci _ cells
    | succ j2 =>
      simp only [List.get?] at hj
      have harith : ci + (j2 + 1) = (ci + 1) + j2 := by omega
      rw [harith]
      exact ih (ci + 1) nc _ j2 v hj (by omega)

theorem populateRowCells_noop (ri : Nat) (row : List String) :
    ∀ (ci nc : Nat) (cells : Cells),
      (∀ j v, row.get? j = some v → ci + j < nc → getCell ri (ci + j) cells = some v) →
      populateRowCells ri ci row nc cells = cells := by
  induction row with
  | nil => intro ci nc cells _h; rfl
  | cons v0 rest ih =>
    intro ci nc cells h
    rw [populateRowCells]
    have hrest : ∀ j v, rest.get? j = some v → (ci + 1) + j < nc →
        getCell ri ((ci + 1) + j) cells = some v := by
      intro j v hj hlt
      have harith : (ci + 1) + j = ci + (j + 1) := by omega
      rw [harith]
      exact h (j + 1) v (by simpa [List.get?] using hj) (by omega)
    by_cases hci : ci < nc
    · rw [if_pos hci]
      have hv0 : getCell ri ci cells = some v0 := by
        have := h 0 v0 (by simp [List.get?]) (by omega)
        simpa using this
      rw [setCell_eq_self _ _ _ _ hv0]
      exact ih _ _ _ hrest
    · rw [if_neg hci]
      exact ih _ _ _ hrest

theorem populateRow_getAssoc_ne (ri : Nat) (row : List String) (nc : Nat) (cells : Cells)
    (r2 : Nat) (h : r2 ≠ ri) :
    getAssoc r2 (populateRow ri row nc cells) = getAssoc r2 cells := by
  unfold populateRow
  rw [populateRowCells_getAssoc_ne _ _ _ _ _ _ h, getAssoc_ensureRow_ne _ _ _ h]

theorem populateRow_isSome (ri : Nat) (row : List String) (nc : Nat) (cells : Cells) :
    (getAssoc ri (populateRow ri row nc cells)).isSome = true := by
  unfold populateRow
  exact populateRowCells_isSome _ _ _ _ _ (getAssoc_ensureRow_self _ _)

theorem populateRow_done (ri : Nat) (row : List String) (nc : Nat) (cells : Cells)
    (j : Nat) (v : String) (hj : row.get? j = some v) (hlt : j < nc) :
    getCell ri j (populateRow ri row nc cells) = some v := by
  unfold populateRow
  have := populateRowCells_done ri row 0 nc (ensureRow ri cells) j v hj (by omega)
  simpa using this

theorem populateRow_noop (ri : Nat) (row : List String) (nc : Nat) (cells : Cells)
    (hsome : (getAssoc ri cells).isSome = true)
    (hdone : ∀ j v, row.get? j = some v → j < nc → getCell ri j cells = some v) :
    populateRow ri row nc cells = cells := by
  unfold populateRow
  rw [ensureRow_of_isSome _ _ hsome]
  apply populateRowCells_noop
  intro j v hj hlt
  have h0 : (0 : Nat) + j = j := by omega
  rw [h0]
  exact hdone j v hj (by omega)

theorem populateCellsFrom_getAssoc_lt (rows : List (List String)) :
    ∀ (ri nc : Nat) (cells : Cells) (r2 : Nat), r2 < ri →
      getAssoc r2 (populateCellsFrom ri rows nc cells) = getAssoc r2 cells := by
  induction rows with
  | nil => intro ri nc cells r2 _h; rfl
  | cons row rest ih =>
    intro ri nc cells r2 h
    rw [populateCellsFrom, ih _ _ _ _ (by omega),
      populateRow_getAssoc_ne _ _ _ _ _ (by omega)]

theorem populateCellsFrom_est (rows : List (List String)) :
    ∀ (ri nc : Nat) (cells : Cells) (k : Nat) (row : List String),
      rows.get? k = some row →
      (getAssoc (ri + k) (populateCellsFrom ri rows nc cells)).isSome = true
      ∧ (∀ j v, row.get? j = some v → j < nc →
          getCell (ri + k) j (populateCellsFrom ri rows nc cells) = some v) := by
  induction rows with
  | nil => intro ri nc cells k row hk; cases k <;> cases hk
  | cons row0 rest ih =>
    intro ri nc cells k row hk
    rw [populateCellsFrom]
    cases k with
    | zero =>
      simp only [List.get?] at hk
      cases hk
      have hpres : getAssoc ri (populateCellsFrom (ri + 1) rest nc (populateRow ri row0 nc cells))
          = getAssoc ri (populateRow ri row0 nc cells) :=
        populateCellsFrom_getAssoc_lt rest (ri + 1) nc _ ri (by omega)
      constructor
      · have h0 : ri + 0 = ri := by omega
        rw [h0, hpres]
        exact populateRow_isSome _ _ _ _
      · intro j v hj hlt
        have h0 : ri + 0 = ri := by omega
        rw [h0]
        unfold getCell
        rw [hpres]
        have := populateRow_done ri row0 nc cells j v hj hlt
        unfold getCell at this
        exact this
    | succ k2 =>
      simp only [List.get?] at hk
      have harith : ri + (k2 + 1) = (ri + 1) + k2 := by omega
      rw [harith]
      exact ih (ri + 1) nc _ k2 row hk

theorem populateCellsFrom_noop (rows : List (List String)) :
    ∀ (ri nc : Nat) (cells : Cells),
      (∀ k row, rows.get? k = some row →
        (getAssoc (ri + k) cells).isSome = true
        ∧ ∀ j v, row.get? j = some v → j < nc → getCell (ri + k) j cells = some v) →
      populateCellsFrom ri rows nc cells = cells := by
  induction rows with
  | nil => intro ri nc cells _h; rfl
  | cons row0 rest ih =>
    intro ri nc cells h
    rw [populateCellsFrom]
    have h0 := h 0 row0 (by simp [List.get?])
    have hri : ri + 0 = ri := by omega
    rw [hri] at h0
    rw [populateRow_noop _ _ _ _ h0.1 h0.2]
    apply ih
    intro k row hk
    have harith : (ri + 1) + k = ri + (k + 1) := by omega
    rw [harith]
    exact h (k + 1) row (by simpa [List.get?] using hk)

/-- Re-running the cell population on its own output is the identity. -/
theorem populateCells_idem (rows : List (List String)) (nc : Nat) (c : Cells) :
    populateCells rows nc (populateCells rows nc c) = populateCells rows nc c := by
  unfold populateCells
  apply populateCellsFrom_noop
  intro k row hk
  exact populateCellsFrom_est rows 0 nc c k row hk

theorem getAssoc_mem {α : Type} (k : Nat) (m : List (Nat × α)) (v : α)
    (h : getAssoc k m = some v) : (k, v) ∈ m := by
  induction m with
  | nil => cases h
  | cons p rest ih =>
    obtain ⟨k2, v2⟩ := p
    by_cases h2 : k = k2
    · subst h2
      have hv : v2 = v := by
        simp [getAssoc] at h
        exact h
      subst hv
      exact List.mem_cons_self _ _
    · simp only [getAssoc, h2, if_false] at h
      exact List.mem_cons_of_mem _ (ih h)

theorem parsedTCO_no_table (parsed : List (Nat × PBlock))
    (h : parsedTextCodeOnly parsed = true) (k : Nat) (rows : List (List String))
    (cap : Option String) (hl : getAssoc k parsed = some (.table rows cap)) : False := by
  rw [parsedTextCodeOnly, List.all_eq_true] at h
  simpa using h _ (getAssoc_mem _ _ _ hl)

theorem parsedTCO_no_image (parsed : List (Nat × PBlock))
    (h : parsedTextCodeOnly parsed = true) (k : Nat) (cap disp fal : Option String)
    (dims : Option (Nat × Nat)) (path : String)
    (hl : getAssoc k parsed = some (.image cap disp fal dims path)) : False := by
  rw [parsedTextCodeOnly, List.all_eq_true] at h
  simpa using h _ (getAssoc_mem _ _ _ hl)

theorem parsedTCO_text_marker (parsed : List (Nat × PBlock))
    (h : parsedTextCodeOnly parsed = true) (k : Nat) (tt txt : String)
    (al : Option String) (hl : getAssoc k parsed = some (.text tt txt al)) :
    strStartsWith txt ("PLACEHOLDER_TEXT_") = false := by
  rw [parsedTextCodeOnly, List.all_eq_true] at h
  simpa using h _ (getAssoc_mem _ _ _ hl)

/-- The per-node patch is idempotent on the node value, and under a
placeholder map holding only benign text/code blocks the second pass
counts nothing. -/
theorem updateNode_second (parsed : List (Nat × PBlock)) (node_id : Nat) (node : SNode)
    (n1 : SNode) (c1 : Nat) (h : updateNode parsed node_id node = (some n1, c1)) :
    (updateNode parsed node_id n1).1 = some n1
    ∧ (parsedTextCodeOnly parsed = true → (updateNode parsed node_id n1).2 = 0) := by
  by_cases httext : (node.type == "text") = true
  · -- text node
    cases hpb : getAssoc node_id parsed with
    | some pb =>
      cases pb with
      | code c l =>
        simp only [updateNode, httext, if_true, hpb, Option.some.injEq, Prod.mk.injEq] at h
        obtain ⟨hn1, _hc1⟩ := h
        subst hn1
        constructor
        · simp [updateNode]
        · intro _
          simp [updateNode]
      | text tt txt al =>
        by_cases hd : node.data.isSome = true
        · obtain ⟨d, hdd⟩ := Option.isSome_iff_exists.mp hd
          by_cases hdt : d.text.isSome = true
          · obtain ⟨t, hdtt⟩ := Option.isSome_iff_exists.mp hdt
            by_cases hsw : strStartsWith t ("PLACEHOLDER_TEXT_") = true
            · by_cases hbl : pyBlankText txt = true
              · simp only [updateNode, httext, if_true, hpb, hdd, hdtt, hsw, hbl,
                  Prod.mk.injEq] at h
                exact absurd h.1 (by simp)
              · have hblf : pyBlankText txt = false := by
                  cases hx : pyBlankText txt
                  · rfl
                  · exact absurd hx hbl
                simp only [updateNode, httext, if_true, hpb, hdd, hdtt, hsw, hblf,
                  Bool.false_eq_true, if_false, Option.some.injEq, Prod.mk.injEq] at h
                obtain ⟨hn1, _hc1⟩ := h
                by_cases hsw2 : strStartsWith txt ("PLACEHOLDER_TEXT_") = true
                · constructor
                  · subst hn1
                    cases al with
                    | none =>
                      simp [updateNode, httext, hpb, hsw2, hblf]
                    | some a =>
                      cases ham : lookupStr a alignment_map with
                      | none => simp [updateNode, httext, hpb, hsw2, hblf, ham]
                      | some m => simp [updateNode, httext, hpb, hsw2, hblf, ham]
                  · intro htco
                    have hf := parsedTCO_text_marker parsed htco node_id tt txt al hpb
                    rw [hsw2] at hf
                    cases hf
                · have hsw2f : strStartsWith txt ("PLACEHOLDER_TEXT_") = false := by
                    cases hx : strStartsWith txt ("PLACEHOLDER_TEXT_")
                    · rfl
                    · exact absurd hx hsw2
                  constructor
                  · subst hn1
                    cases al with
                    | none => simp [updateNode, httext, hpb, hsw2f]
                    | some a =>
                      cases ham : lookupStr a alignment_map with
                      | none => simp [updateNode, httext, hpb, hsw2f, ham]
                      | some m => simp [updateNode, httext, hpb, hsw2f, ham]
                  · intro _
                    subst hn1
                    cases al with
                    | none => simp [updateNode, httext, hpb, hsw2f]
                    | some a =>
                      cases ham : lookupStr a alignment_map with
                      | none => simp [updateNode, httext, hpb, hsw2f, ham]
                      | some m => simp [updateNode, httext, hpb, hsw2f, ham]
            · have hswf : strStartsWith t ("PLACEHOLDER_TEXT_") = false := by
                cases hx : strStartsWith t ("PLACEHOLDER_TEXT_")
                · rfl
                · exact absurd hx hsw
              simp only [updateNode, httext, if_true, hpb, hdd, hdtt, hswf,
                Bool.false_eq_true, if_false, Option.some.injEq, Prod.mk.injEq] at h
              obtain ⟨hn1, _hc1⟩ := h
              subst hn1
              constructor
              · simp [updateNode, httext, hpb, hdd, hdtt, hswf]
              · intro _
                simp [updateNode, httext, hpb, hdd, hdtt, hswf]
          · have hdtf : d.text = none := by
              cases hx : d.text
              · rfl
              · rw [hx] at hdt; exact absurd rfl hdt
            simp only [updateNode, httext, if_true, hpb, hdd, hdtf, Option.some.injEq,
              Prod.mk.injEq] at h
            obtain ⟨hn1, _hc1⟩ := h
            subst hn1
            constructor
            · simp [updateNode, httext, hpb, hdd, hdtf]
            · intro _
              simp [updateNode, httext, hpb, hdd, hdtf]
        · have hdf : node.data = none := by
            cases hx : node.data
            · rfl
            · rw [hx] at hd; exact absurd rfl hd
          simp only [updateNode, httext, if_true, hpb, hdf, Option.some.injEq,
            Prod.mk.injEq] at h
          obtain ⟨hn1, _hc1⟩ := h
          subst hn1
          constructor
          · simp [updateNode, httext, hpb, hdf]
          · intro _
            simp [updateNode, httext, hpb, hdf]
      | table rows cap =>
        simp only [updateNode, httext, if_true, hpb] at h
        cases hdd : node.data with
        | none =>
          simp only [hdd] at h
          simp only [Option.some.injEq, Prod.mk.injEq] at h
          obtain ⟨hn1, _⟩ := h
          subst hn1
          constructor
          · simp [updateNode, httext, hpb, hdd]
          · intro _
            simp [updateNode, httext, hpb, hdd]
        | some d =>
          simp only [hdd] at h
          cases hdt : d.text with
          | none =>
            simp only [hdt] at h
            simp only [Option.some.injEq, Prod.mk.injEq] at h
            obtain ⟨hn1, _⟩ := h
            subst hn1
            constructor
            · simp [updateNode, httext, hpb, hdd, hdt]
            · intro _
              simp [updateNode, httext, hpb, hdd, hdt]
          | some t =>
            simp only [hdt] at h
            by_cases hsw : strStartsWith t ("PLACEHOLDER_TEXT_") = true
            · simp only [hsw, if_true] at h
              simp only [if_true, Option.some.injEq, Prod.mk.injEq] at h
              obtain ⟨hn1, _⟩ := h
              subst hn1
              constructor
              · simp [updateNode, httext, hpb, hdd, hdt, hsw]
              · intro _
                simp [updateNode, httext, hpb, hdd, hdt, hsw]
            · have hswf : strStartsWith t ("PLACEHOLDER_TEXT_") = false := by
                cases hx : strStartsWith t ("PLACEHOLDER_TEXT_")
                · rfl
                · exact absurd hx hsw
              simp only [hswf, Bool.false_eq_true, if_false] at h
              simp only [Bool.false_eq_true, if_false, Option.some.injEq, Prod.mk.injEq] at h
              obtain ⟨hn1, _⟩ := h
              subst hn1
              constructor
              · simp [updateNode, httext, hpb, hdd, hdt, hswf]
              · intro _
                simp [updateNode, httext, hpb, hdd, hdt, hswf]
      | image cap disp fal dims path =>
        simp only [updateNode, httext, if_true, hpb] at h
        cases hdd : node.data with
        | none =>
          simp only [hdd] at h
          simp only [Option.some.injEq, Prod.mk.injEq] at h
          obtain ⟨hn1, _⟩ := h
          subst hn1
          constructor
          · simp [updateNode, httext, hpb, hdd]
          · intro _
            simp [updateNode, httext, hpb, hdd]
        | some d =>
          simp only [hdd] at h
          cases hdt : d.text with
          | none =>
            simp only [hdt] at h
            simp only [Option.some.injEq, Prod.mk.injEq] at h
            obtain ⟨hn1, _⟩ := h
            subst hn1
            constructor
            · simp [updateNode, httext, hpb, hdd, hdt]
            · intro _
              simp [updateNode, httext, hpb, hdd, hdt]
          | some t =>
            simp only [hdt] at h
            by_cases hsw : strStartsWith t ("PLACEHOLDER_TEXT_") = true
            · simp only [hsw, if_true] at h
              simp only [if_true, Option.some.injEq, Prod.mk.injEq] at h
              obtain ⟨hn1, _⟩ := h
              subst hn1
              constructor
              · simp [updateNode, httext, hpb, hdd, hdt, hsw]
              · intro _
                simp [updateNode, httext, hpb, hdd, hdt, hsw]
            · have hswf : strStartsWith t ("PLACEHOLDER_TEXT_") = false := by
                cases hx : strStartsWith t ("PLACEHOLDER_TEXT_")
                · rfl
                · exact absurd hx hsw
              simp only [hswf, Bool.false_eq_true, if_false] at h
              simp only [Bool.false_eq_true, if_false, Option.some.injEq, Prod.mk.injEq] at h
              obtain ⟨hn1, _⟩ := h
              subst hn1
              constructor
              · simp [updateNode, httext, hpb, hdd, hdt, hswf]
              · intro _
                simp [updateNode, httext, hpb, hdd, hdt, hswf]
      | separator =>
        simp only [updateNode, httext, if_true, hpb] at h
        cases hdd : node.data with
        | none =>
          simp only [hdd] at h
          simp only [Option.some.injEq, Prod.mk.injEq] at h
          obtain ⟨hn1, _⟩ := h
          subst hn1
          constructor
          · simp [updateNode, httext, hpb, hdd]
          · intro _
            simp [updateNode, httext, hpb, hdd]
        | some d =>
          simp only [hdd] at h
          cases hdt : d.text with
          | none =>
            simp only [hdt] at h
            simp only [Option.some.injEq, Prod.mk.injEq] at h
            obtain ⟨hn1, _⟩ := h
            subst hn1
            constructor
            · simp [updateNode, httext, hpb, hdd, hdt]
            · intro _
              simp [updateNode, httext, hpb, hdd, hdt]
          | some t =>
            simp only [hdt] at h
            by_cases hsw : strStartsWith t ("PLACEHOLDER_TEXT_") = true
            · simp only [hsw, if_true] at h
              simp only [if_true, Option.some.injEq, Prod.mk.injEq] at h
              obtain ⟨hn1, _⟩ := h
              subst hn1
              constructor
              · simp [updateNode, httext, hpb, hdd, hdt, hsw]
              · intro _
                simp [updateNode, httext, hpb, hdd, hdt, hsw]
            · have hswf : strStartsWith t ("PLACEHOLDER_TEXT_") = false := by
                cases hx : strStartsWith t ("PLACEHOLDER_TEXT_")
                · rfl
                · exact absurd hx hsw
              simp only [hswf, Bool.false_eq_true, if_false] at h
              simp only [Bool.false_eq_true, if_false, Option.some.injEq, Prod.mk.injEq] at h
              obtain ⟨hn1, _⟩ := h
              subst hn1
              constructor
              · simp [updateNode, httext, hpb, hdd, hdt, hswf]
              · intro _
                simp [updateNode, httext, hpb, hdd, hdt, hswf]
    | none =>
      simp only [updateNode, httext, if_true, hpb] at h
      cases hdd : node.data with
      | none =>
        simp only [hdd] at h
        simp only [Option.some.injEq, Prod.mk.injEq] at h
        obtain ⟨hn1, _⟩ := h
        subst hn1
        constructor
        · simp [updateNode, httext, hpb, hdd]
        · intro _
          simp [updateNode, httext, hpb, hdd]
      | some d =>
        simp only [hdd] at h
        cases hdt : d.text with
        | none =>
          simp only [hdt] at h
          simp only [Option.some.injEq, Prod.mk.injEq] at h
          obtain ⟨hn1, _⟩ := h
          subst hn1
          constructor
          · simp [updateNode, httext, hpb, hdd, hdt]
          · intro _
            simp [updateNode, httext, hpb, hdd, hdt]
        | some t =>
          simp only [hdt] at h
          by_cases hsw : strStartsWith t ("PLACEHOLDER_TEXT_") = true
          · simp only [hsw, if_true] at h
            simp only [if_true, Option.some.injEq, Prod.mk.injEq] at h
            obtain ⟨hn1, _⟩ := h
            subst hn1
            constructor
            · simp [updateNode, httext, hpb, hdd, hdt, hsw]
            · intro _
              simp [updateNode, httext, hpb, hdd, hdt, hsw]
          · have hswf : strStartsWith t ("PLACEHOLDER_TEXT_") = false := by
              cases hx : strStartsWith t ("PLACEHOLDER_TEXT_")
              · rfl
              · exact absurd hx hsw
            simp only [hswf, Bool.false_eq_true, if_false] at h
            simp only [Bool.false_eq_true, if_false, Option.some.injEq, Prod.mk.injEq] at h
            obtain ⟨hn1, _⟩ := h
            subst hn1
            constructor
            · simp [updateNode, httext, hpb, hdd, hdt, hswf]
            · intro _
              simp [updateNode, httext, hpb, hdd, hdt, hswf]
  · -- not a text node
    have httf : (node.type == "text") = false := by
      cases hx : node.type == "text"
      · rfl
      · exact absurd hx httext
    by_cases httab : (node.type == "table") = true
    · cases hdd : node.data with
      | none =>
        simp only [updateNode, httf, Bool.false_eq_true, if_false, httab, if_true, hdd,
          Option.some.injEq, Prod.mk.injEq] at h
        obtain ⟨hn1, _⟩ := h
        subst hn1
        constructor
        · simp [updateNode, httf, httab, hdd]
        · intro _
          simp [updateNode, httf, httab, hdd]
      | some d =>
        cases hpb : getAssoc node_id parsed with
        | none =>
          simp only [updateNode, httf, Bool.false_eq_true, if_false, httab, if_true, hdd,
            hpb, Option.some.injEq, Prod.mk.injEq] at h
          obtain ⟨hn1, _⟩ := h
          subst hn1
          constructor
          · simp [updateNode, httf, httab, hdd, hpb]
          · intro _
            simp [updateNode, httf, httab, hdd, hpb]
        | some pb =>
          cases pb with
          | table rows cap =>
            simp only [updateNode, httf, Bool.false_eq_true, if_false, httab, if_true, hdd,
              hpb, Option.some.injEq, Prod.mk.injEq] at h
            obtain ⟨hn1, _⟩ := h
            constructor
            · subst hn1
              cases cap with
              | none =>
                simp only [updateNode, httf, Bool.false_eq_true, if_false, httab, if_true,
                  hpb]
                simp [populateCells_idem]
              | some cs =>
                by_cases hcs : (cs != "") = true
                · simp only [updateNode, httf, Bool.false_eq_true, if_false, httab, if_true,
                    hpb]
                  simp [populateCells_idem, hcs]
                · have hcsf : (cs != "") = false := by
                    cases hx : cs != ""
                    · rfl
                    · exact absurd hx hcs
                  simp only [updateNode, httf, Bool.false_eq_true, if_false, httab, if_true,
                    hpb]
                  simp [populateCells_idem, hcsf]
            · intro htco
              exact (parsedTCO_no_table parsed htco node_id rows cap hpb).elim
          | code c l =>
            simp only [updateNode, httf, Bool.false_eq_true, if_false, httab, if_true, hdd,
              hpb, Option.some.injEq, Prod.mk.injEq] at h
            obtain ⟨hn1, _⟩ := h
            subst hn1
            constructor
            · simp [updateNode, httf, httab, hdd, hpb]
            · intro _
              simp [updateNode, httf, httab, hdd, hpb]
          | text tt txt al =>
            simp only [updateNode, httf, Bool.false_eq_true, if_false, httab, if_true, hdd,
              hpb, Option.some.injEq, Prod.mk.injEq] at h
            obtain ⟨hn1, _⟩ := h
            subst hn1
            constructor
            · simp [updateNode, httf, httab, hdd, hpb]
            · intro _
              simp [updateNode, httf, httab, hdd, hpb]
          | image cap disp fal dims path =>
            simp only [updateNode, httf, Bool.false_eq_true, if_false, httab, if_true, hdd,
              hpb, Option.some.injEq, Prod.mk.injEq] at h
            obtain ⟨hn1, _⟩ := h
            subst hn1
            constructor
            · simp [updateNode, httf, httab, hdd, hpb]
            · intro _
              simp [updateNode, httf, httab, hdd, hpb]
          | separator =>
            simp only [updateNode, httf, Bool.false_eq_true, if_false, httab, if_true, hdd,
              hpb, Option.some.injEq, Prod.mk.injEq] at h
            obtain ⟨hn1, _⟩ := h
            subst hn1
            constructor
            · simp [updateNode, httf, httab, hdd, hpb]
            · intro _
              simp [updateNode, httf, httab, hdd, hpb]
    · have htabf : (node.type == "table") = false := by
        cases hx : node.type == "table"
        · rfl
        · exact absurd hx httab
      by_cases htim : (node.type == "image") = true
      · cases hdd : node.data with
        | none =>
          simp only [updateNode, httf, Bool.false_eq_true, if_false, htabf, htim, if_true,
            hdd, Option.some.injEq, Prod.mk.injEq] at h
          obtain ⟨hn1, _⟩ := h
          subst hn1
          constructor
          · simp [updateNode, httf, htabf, htim, hdd]
          · intro _
            simp [updateNode, httf, htabf, htim, hdd]
        | some d =>
          cases hpb : getAssoc node_id parsed with
          | none =>
            simp only [updateNode, httf, Bool.false_eq_true, if_false, htabf, htim, if_true,
              hdd, hpb, Option.some.injEq, Prod.mk.injEq] at h
            obtain ⟨hn1, _⟩ := h
            subst hn1
            constructor
            · simp [updateNode, httf, htabf, htim, hdd, hpb]
            · intro _
              simp [updateNode, httf, htabf, htim, hdd, hpb]
          | some pb =>
            cases pb with
            | image cap disp fal dims path =>
              cases cap with
              | none =>
                by_cases hfl : (disp == some ("float") && truthyOpt fal) = true
                · simp only [updateNode, httf, Bool.false_eq_true, if_false, htabf, htim,
                    if_true, hdd, hpb, hfl, Option.some.injEq, Prod.mk.injEq] at h
                  obtain ⟨hn1, _⟩ := h
                  subst hn1
                  constructor
                  · simp [updateNode, httf, htabf, htim, hpb, hfl]
                  · intro htco
                    exact (parsedTCO_no_image parsed htco node_id none disp fal dims path
                      hpb).elim
                · have hflf : (disp == some ("float") && truthyOpt fal) = false := by
                    cases hx : disp == some ("float") && truthyOpt fal
                    · rfl
                    · exact absurd hx hfl
                  simp only [updateNode, httf, Bool.false_eq_true, if_false, htabf, htim,
                    if_true, hdd, hpb, hflf, Option.some.injEq, Prod.mk.injEq] at h
                  obtain ⟨hn1, _⟩ := h
                  subst hn1
                  constructor
                  · simp [updateNode, httf, htabf, htim, hdd, hpb, hflf]
                  · intro htco
                    exact (parsedTCO_no_image parsed htco node_id none disp fal dims path
                      hpb).elim
              | some cs =>
                by_cases hcs : (cs != "") = true
                · by_cases hfl : (disp == some ("float") && truthyOpt fal) = true
                  · simp only [updateNode, httf, Bool.false_eq_true, if_false, htabf, htim,
                      if_true, hdd, hpb, hcs, hfl, Option.some.injEq, Prod.mk.injEq] at h
                    obtain ⟨hn1, _⟩ := h
                    subst hn1
                    constructor
                    · simp [updateNode, httf, htabf, htim, hpb, hcs, hfl]
                    · intro htco
                      exact (parsedTCO_no_image parsed htco node_id (some cs) disp fal dims
                        path hpb).elim
                  · have hflf : (disp == some ("float") && truthyOpt fal) = false := by
                      cases hx : disp == some ("float") && truthyOpt fal
                      · rfl
                      · exact absurd hx hfl
                    simp only [updateNode, httf, Bool.false_eq_true, if_false, htabf, htim,
                      if_true, hdd, hpb, hcs, hflf, Option.some.injEq, Prod.mk.injEq] at h
                    obtain ⟨hn1, _⟩ := h
                    subst hn1
                    constructor
                    · simp [updateNode, httf, htabf, htim, hpb, hcs, hflf]
                    · intro htco
                      exact (parsedTCO_no_image parsed htco node_id (some cs) disp fal dims
                        path hpb).elim
                · have hcsf : (cs != "") = false := by
                    cases hx : cs != ""
                    · rfl
                    · exact absurd hx hcs
                  by_cases hfl : (disp == some ("float") && truthyOpt fal) = true
                  · simp only [updateNode, httf, Bool.false_eq_true, if_false, htabf, htim,
                      if_true, hdd, hpb, hcsf, hfl, Option.some.injEq, Prod.mk.injEq] at h
                    obtain ⟨hn1, _⟩ := h
                    subst hn1
                    constructor
                    · simp [updateNode, httf, htabf, htim, hpb, hcsf, hfl]
                    · intro htco
                      exact (parsedTCO_no_image parsed htco node_id (some cs) disp fal dims
                        path hpb).elim
                  · have hflf : (disp == some ("float") && truthyOpt fal) = false := by
                      cases hx : disp == some ("float") && truthyOpt fal
                      · rfl
                      · exact absurd hx hfl
                    simp only [updateNode, httf, Bool.false_eq_true, if_false, htabf, htim,
                      if_true, hdd, hpb, hcsf, hflf, Option.some.injEq, Prod.mk.injEq] at h
                    obtain ⟨hn1, _⟩ := h
                    subst hn1
                    constructor
                    · simp [updateNode, httf, htabf, htim, hdd, hpb, hcsf, hflf]
                    · intro htco
                      exact (parsedTCO_no_image parsed htco node_id (some cs) disp fal dims
                        path hpb).elim
            | code c l =>
              simp only [updateNode, httf, Bool.false_eq_true, if_false, htabf, htim,
                if_true, hdd, hpb, Option.some.injEq, Prod.mk.injEq] at h
              obtain ⟨hn1, _⟩ := h
              subst hn1
              constructor
              · simp [updateNode, httf, htabf, htim, hdd, hpb]
              · intro _
                simp [updateNode, httf, htabf, htim, hdd, hpb]
            | text tt txt al =>
              simp only [updateNode, httf, Bool.false_eq_true, if_false, htabf, htim,
                if_true, hdd, hpb, Option.some.injEq, Prod.mk.injEq] at h
              obtain ⟨hn1, _⟩ := h
              subst hn1
              constructor
              · simp [updateNode, httf, htabf, htim, hdd, hpb]
              · intro _
                simp [updateNode, httf, htabf, htim, hdd, hpb]
            | table rows cap =>
              simp only [updateNode, httf, Bool.false_eq_true, if_false, htabf, htim,
                if_true, hdd, hpb, Option.some.injEq, Prod.mk.injEq] at h
              obtain ⟨hn1, _⟩ := h
              subst hn1
              constructor
              · simp [updateNode, httf, htabf, htim, hdd, hpb]
              · intro _
                simp [updateNode, httf, htabf, htim, hdd, hpb]
            | separator =>
              simp only [updateNode, httf, Bool.false_eq_true, if_false, htabf, htim,
                if_true, hdd, hpb, Option.some.injEq, Prod.mk.injEq] at h
              obtain ⟨hn1, _⟩ := h
              subst hn1
              constructor
              · simp [updateNode, httf, htabf, htim, hdd, hpb]
              · intro _
                simp [updateNode, httf, htabf, htim, hdd, hpb]
      · have htimf : (node.type == "image") = false := by
          cases hx : node.type == "image"
          · rfl
          · exact absurd hx htim
        simp only [updateNode, httf, Bool.false_eq_true, if_false, htabf, htimf,
          Option.some.injEq, Prod.mk.injEq] at h
        obtain ⟨hn1, _⟩ := h
        subst hn1
        constructor
        · simp [updateNode, httf, htabf, htimf]
        · intro _
          simp [updateNode, httf, htabf, htimf]

theorem update_fold_inv (parsed : List (Nat × PBlock)) (l : List (Nat × SNode)) :
    ∀ acc : List (Nat × SNode) × Nat × Nat,
      (∀ e ∈ acc.1, (updateNode parsed e.1 e.2).1 = some e.2
        ∧ (parsedTextCodeOnly parsed = true → (updateNode parsed e.1 e.2).2 = 0)) →
      ∀ e ∈ (l.foldl
          (fun acc p =>
            match updateNode parsed p.1 p.2 with
            | (some n2, c) => (acc.1 ++ [(p.1, n2)], acc.2.1 + c, acc.2.2)
            | (none, c) => (acc.1, acc.2.1 + c, acc.2.2 + 1)) acc).1,
        (updateNode parsed e.1 e.2).1 = some e.2
        ∧ (parsedTextCodeOnly parsed = true → (updateNode parsed e.1 e.2).2 = 0) := by
  induction l with
  | nil => intro acc hacc; exact hacc
  | cons p rest ih =>
    intro acc hacc
    rw [List.foldl_cons]
    apply ih
    cases hu : updateNode parsed p.1 p.2 with
    | mk o c =>
      cases o with
      | some n2 =>
        simp only [hu]
        intro e he
        rcases List.mem_append.mp he with hm | hm
        · exact hacc e hm
        · simp only [List.mem_singleton] at hm
          subst hm
          exact updateNode_second parsed p.1 p.2 n2 c hu
      | none =>
        simp only [hu]
        exact hacc

theorem update_fixed_fold (parsed : List (Nat × PBlock)) (l : List (Nat × SNode)) :
    (∀ e ∈ l, (updateNode parsed e.1 e.2).1 = some e.2) →
    ∀ acc : List (Nat × SNode) × Nat × Nat,
      (l.foldl
          (fun acc p =>
            match updateNode parsed p.1 p.2 with
            | (some n2, c) => (acc.1 ++ [(p.1, n2)], acc.2.1 + c, acc.2.2)
            | (none, c) => (acc.1, acc.2.1 + c, acc.2.2 + 1)) acc)
        = (acc.1 ++ l, acc.2.1 + (l.map fun e => (updateNode parsed e.1 e.2).2).sum,
           acc.2.2) := by
  induction l with
  | nil => intro _ acc; simp
  | cons p rest ih =>
    intro h acc
    rw [List.foldl_cons]
    cases hu : updateNode parsed p.1 p.2 with
    | mk o c =>
      have ho : o = some p.2 := by
        have hp := h p (List.mem_cons_self _ _)
        rw [hu] at hp
        exact hp
      subst ho
      simp only [hu]
      rw [ih (fun e he => h e (List.mem_cons_of_mem _ he))
        (acc.1 ++ [p], acc.2.1 + c, acc.2.2)]
      have h1 : acc.1 ++ [p] ++ rest = acc.1 ++ p :: rest := by
        rw [List.append_assoc]
        rfl
      have h2 : acc.2.1 + c + (rest.map fun e => (updateNode parsed e.1 e.2).2).sum
          = acc.2.1 + ((p :: rest).map fun e => (updateNode parsed e.1 e.2).2).sum := by
        simp only [List.map_cons, List.sum_cons, hu]
        omega
      rw [h1, h2]

/-- Claim C5, counterexample: `c5Nodes` carries no placeholder marker
and already holds the final table content — a second pass leaves the
node map unchanged and deletes nothing — yet the pass still counts one
replacement for the tracked table node, refuting the claimed zero
replacement count. -/
theorem C5_counterexample :
    noPlaceholderText c5Nodes = true
    ∧ (update_storymap_content c5Nodes c5Parsed).1 = c5Nodes
    ∧ (update_storymap_content c5Nodes c5Parsed).2.1 = 1
    ∧ (update_storymap_content c5Nodes c5Parsed).2.2 = 0 :=
  ⟨by decide, by decide, by decide, by decide⟩

/-- Claim C5 (amended): the content patch is idempotent on the node map —
re-running phase 2 on its own output changes no node and deletes no node;
the replacement counter of the re-run is zero when the placeholder map
tracks only text/code blocks (none of whose contents is itself a
placeholder marker), while tracked table and image nodes are re-patched
with identical values and re-counted. -/
theorem C5_amended (nodes : List (Nat × SNode)) (parsed : List (Nat × PBlock)) :
    (update_storymap_content (update_storymap_content nodes parsed).1 parsed).1
      = (update_storymap_content nodes parsed).1
    ∧ (update_storymap_content (update_storymap_content nodes parsed).1 parsed).2.2 = 0
    ∧ (parsedTextCodeOnly parsed = true →
        (update_storymap_content (update_storymap_content nodes parsed).1 parsed).2.1 = 0) := by
  have hinv := update_fold_inv parsed nodes ([], 0, 0) (by intro e he; cases he)
  have hfix : ∀ e ∈ (update_storymap_content nodes parsed).1,
      (updateNode parsed e.1 e.2).1 = some e.2 := by
    intro e he
    exact (hinv e he).1
  have hfold := update_fixed_fold parsed (update_storymap_content nodes parsed).1 hfix
    ([], 0, 0)
  have hsecond : update_storymap_content (update_storymap_content nodes parsed).1 parsed
      = ((update_storymap_content nodes parsed).1,
         (((update_storymap_content nodes parsed).1).map
           fun e => (updateNode parsed e.1 e.2).2).sum, 0) := by
    rw [update_storymap_content, hfold]
    simp
  refine ⟨by rw [hsecond], by rw [hsecond], ?_⟩
  intro htco
  rw [hsecond]
  simp only []
  apply List.sum_eq_zero
  intro x hx
  obtain ⟨e, he, rfl⟩ := List.mem_map.mp hx
  exact (hinv e he).2 htco

/-- Claim C5 (amended) witness: one placeholder text node patched once;
the re-run changes nothing, deletes nothing and counts nothing. -/
theorem C5_amended_witness :
    (update_storymap_content (update_storymap_content c5WitnessNodes c5WitnessParsed).1
        c5WitnessParsed).1
      = (update_storymap_content c5WitnessNodes c5WitnessParsed).1
    ∧ (update_storymap_content (update_storymap_content c5WitnessNodes c5WitnessParsed).1
        c5WitnessParsed).2.2 = 0
    ∧ parsedTextCodeOnly c5WitnessParsed = true
    ∧ (update_storymap_content (update_storymap_content c5WitnessNodes c5WitnessParsed).1
        c5WitnessParsed).2.1 = 0 :=
  ⟨(C5_amended c5WitnessNodes c5WitnessParsed).1,
   (C5_amended c5WitnessNodes c5WitnessParsed).2.1,
   by decide,
   (C5_amended c5WitnessNodes c5WitnessParsed).2.2 (by decide)⟩

end Storymap
